import Mathlib

/-!
# FelineES: verification of the rule-based feline neurological diagnosis engines

Shallow embedding of the two diagnosis engines of the FelineES repository:

* the priority-waterfall / weighted-scoring engine (`FelineNeuroDiagnosisEngine`,
  file `engine.js`): `validateCompleteInputs`, `evaluateAllRules`,
  `calculateWeightedScore`, `analyzeRuleComplexity`, `getSpecificityBonus`,
  `getSeverityBoost`, `runDiagnosis`;
* the forward-chaining engine (`FelineNeuroForwardChainingEngine`):
  `convertToForwardChainingRules`, `extractConditionsFromRule`,
  `calculateRuleConfidence`, `convertInputsToFacts`, `forwardChaining`,
  `selectBestDiagnosis`;
* the static knowledge base of 30 diagnostic rules (`data.js`).

JavaScript specifics are modelled as follows.  A rule predicate is a function
`Observation → Option Bool`; `none` models the predicate throwing an exception
(the engine catches it and treats the rule as a non-match).  Every predicate in
the knowledge base is total (`some _`).  The engines inspect the *source text*
of a predicate (`rule.condition.toString()`); the source text of each predicate
is carried verbatim in the field `conditionSrc` (apostrophes and curly braces
are written with string escapes).  `Array.prototype.sort`, mandated stable by
ECMAScript, is modelled by a stable insertion sort.  JavaScript numbers are
modelled by `Int` for the integer-valued scores and by `ℚ` for the confidence
scalars (every confidence is of the form `k/100`, far apart relative to double
rounding error, so order and strictness are preserved by the rational model).
A JavaScript `Set` of fact strings is modelled by a duplicate-free
insertion-ordered `List String` (`addFact`).
-/

namespace FelineES

set_option maxRecDepth 100000
set_option linter.unusedVariables false

/-! ## Validated observation record (the 11 clinical input fields) -/

inductive AgeGroup where
  | kitten | adult | senior
deriving DecidableEq, Repr

inductive OnsetSpeed where
  | sudden | gradual
deriving DecidableEq, Repr

inductive MobilityStatus where
  | normal | wobbly | paralyzed
deriving DecidableEq, Repr

inductive SeizureLevel where
  | none | mild | severe
deriving DecidableEq, Repr

/-- A complete, validated observation: the 4 categorical fields restricted to
their enumerated values and the 7 boolean clinical signs. -/
structure Observation where
  age_group : AgeGroup
  onset_speed : OnsetSpeed
  mobility_status : MobilityStatus
  seizures : SeizureLevel
  eye_signs : Bool
  pain_signs : Bool
  head_tilt : Bool
  recent_trauma : Bool
  cold_limbs : Bool
  neck_flexion : Bool
  ear_issues : Bool
deriving DecidableEq, Repr

/-! ## Diagnostic rules -/

/-- A diagnostic rule of the knowledge base (`data.js`).  `condition` is the
predicate (`none` = the predicate throws); `conditionSrc` is the JavaScript
source text of the predicate, which the engines inspect with
`String.prototype.includes`. -/
structure Rule where
  priority : Int
  id : String
  name : String
  condition : Observation → Option Bool
  conditionSrc : String
  urgency : String

/-! ## String scanning (JavaScript `String.prototype.includes` etc.)

Implemented over `List Char` so that everything reduces in the kernel. -/

/-- `charListStarts pat hay`: `hay` starts with `pat`. -/
def charListStarts : List Char → List Char → Bool
  | [], _ => true
  | _ :: _, [] => false
  | p :: ps, h :: hs => p == h && charListStarts ps hs

/-- `hasSub pat hay`: `pat` occurs contiguously in `hay`. -/
def hasSub (pat : List Char) : List Char → Bool
  | [] => pat.isEmpty
  | c :: rest => charListStarts pat (c :: rest) || hasSub pat rest

/-- JavaScript `s.includes(pat)`. -/
def jsIncludes (s pat : String) : Bool :=
  hasSub pat.toList s.toList

/-- JavaScript `s.startsWith(pat)`. -/
def jsStartsWith (s pat : String) : Bool :=
  charListStarts pat.toList s.toList

/-- Replace the first occurrence of `pat` in a character list by `rep`
(JavaScript `String.prototype.replace` with a string pattern). -/
def replaceFirstL (pat rep : List Char) : List Char → List Char
  | [] => []
  | c :: rest =>
    if charListStarts pat (c :: rest) then rep ++ (c :: rest).drop pat.length
    else c :: replaceFirstL pat rep rest

/-- JavaScript `s.replace(pat, rep)` (first occurrence only). -/
def jsReplaceOnce (s pat rep : String) : String :=
  String.mk (replaceFirstL pat.toList rep.toList s.toList)

/-- JavaScript `s.toLowerCase()` (the rule identifiers are plain ASCII). -/
def jsToLower (s : String) : String :=
  String.mk (s.toList.map Char.toLower)

/-- JavaScript `s.toUpperCase()` (the rule identifiers are plain ASCII). -/
def jsToUpper (s : String) : String :=
  String.mk (s.toList.map Char.toUpper)

/-! ## Weighted scoring (`engine.js`) -/

/-- The 11 observation field names scanned by `analyzeRuleComplexity`. -/
def inputFields : List String :=
  ["age_group", "onset_speed", "mobility_status", "seizures",
   "eye_signs", "pain_signs", "head_tilt", "recent_trauma",
   "cold_limbs", "neck_flexion", "ear_issues"]

/-- Result of `analyzeRuleComplexity`. -/
structure ComplexityInfo where
  conditionsMatched : Nat
  matchedFields : List String
deriving Repr, DecidableEq

/-- `analyzeRuleComplexity(rule, inputs)`: counts the distinct observation
field names occurring in the predicate's source text, with a floor of 1.
The `inputs` argument is received but never used, exactly as in the source. -/
def analyzeRuleComplexity (rule : Rule) (_inputs : Observation) : ComplexityInfo :=
  let conditionStr := rule.conditionSrc
  let matchedFields := inputFields.filter (fun field => jsIncludes conditionStr field)
  { conditionsMatched := max 1 matchedFields.length
    matchedFields := matchedFields }

/-- `getSpecificityBonus(ruleId)`: fixed per-rule-id bonus table, 0 otherwise. -/
def getSpecificityBonus (ruleId : String) : Int :=
  if ruleId = "THIAMINE_DEFICIENCY" then 100
  else if ruleId = "TRAUMATIC_BRAIN_INJURY" then 150
  else if ruleId = "SADDLE_THROMBUS" then 120
  else if ruleId = "ACUTE_TOXICITY" then 110
  else 0

/-- `getSeverityBoost(urgency)`: fixed urgency-to-points map, 0 by default. -/
def getSeverityBoost (urgency : String) : Int :=
  if urgency = "EMERGENCY" then 100
  else if urgency = "HIGH" then 50
  else if urgency = "MODERATE" then 25
  else if urgency = "LOW" then 0
  else 0

/-- Score breakdown of a match (`calculateWeightedScore`).  The human-readable
`breakdown` strings of the source are omitted (display only). -/
structure Score where
  priority : Int
  complexity : Int
  specificity : Int
  severity : Int
  total : Int
deriving Repr, DecidableEq

/-- `calculateWeightedScore(rule, inputs)`. -/
def calculateWeightedScore (rule : Rule) (inputs : Observation) : Score :=
  let priorityScore : Int := max 0 (31 - rule.priority) * 10
  let complexity := analyzeRuleComplexity rule inputs
  let complexityScore : Int := (complexity.conditionsMatched : Int) * 50
  let specificityScore := getSpecificityBonus rule.id
  let severityScore := getSeverityBoost rule.urgency
  { priority := priorityScore
    complexity := complexityScore
    specificity := specificityScore
    severity := severityScore
    total := priorityScore + complexityScore + specificityScore + severityScore }

/-! ## Evaluation of all rules and best-match selection (`evaluateAllRules`) -/

/-- A match of one rule against one observation. -/
structure Match where
  rule : Rule
  priority : Int
  ruleIndex : Nat
  score : Score

/-- The body of the `evaluateAllRules` loop: evaluate every rule (position `i`
onwards); a predicate that throws (`none`) is caught and skipped; a `true`
predicate yields a match carrying its weighted score. -/
def collectMatches (rules : List Rule) (inputs : Observation) (i : Nat) : List Match :=
  match rules with
  | [] => []
  | r :: rs =>
    match r.condition inputs with
    | some true =>
        { rule := r, priority := r.priority, ruleIndex := i,
          score := calculateWeightedScore r inputs } :: collectMatches rs inputs (i + 1)
    | some false => collectMatches rs inputs (i + 1)
    | Option.none => collectMatches rs inputs (i + 1)

/-- Insert into a list sorted by descending `score.total`, after every element
with a greater-or-equal total (stability: on ties the earlier element stays
first). -/
def insertByScoreDesc (x : Match) : List Match → List Match
  | [] => [x]
  | y :: ys => if x.score.total < y.score.total then y :: insertByScoreDesc x ys
               else x :: y :: ys

/-- `matches.sort((a, b) => b.score.total - a.score.total)` — the stable
descending sort of ECMAScript `Array.prototype.sort`. -/
def sortByScoreDesc : List Match → List Match :=
  List.foldr insertByScoreDesc []

/-- `evaluateAllRules(inputs)`: every rule is evaluated (no short-circuit) and
the matches are stably sorted by total score, highest first. -/
def evaluateAllRules (rules : List Rule) (inputs : Observation) : List Match :=
  sortByScoreDesc (collectMatches rules inputs 0)

/-! ## The knowledge base (`data.js`): the 30 diagnostic rules

Each `conditionSrc` is the verbatim JavaScript source text of the predicate
(what `rule.condition.toString()` returns), with `\x27` for the apostrophe and
`\x7b`/`\x7d` for the curly braces. -/

def ruleTraumaticBrainInjury : Rule :=
  { priority := 1, id := "TRAUMATIC_BRAIN_INJURY", name := "Traumatic Brain Injury",
    condition := fun inputs =>
      some (inputs.recent_trauma == true && inputs.seizures == SeizureLevel.severe),
    conditionSrc := "(inputs) => \x7b\n                return inputs.recent_trauma === true && inputs.seizures === \x27severe\x27;\n            \x7d",
    urgency := "EMERGENCY" }

def ruleSpinalFracture : Rule :=
  { priority := 2, id := "SPINAL_FRACTURE", name := "Spinal Fracture",
    condition := fun inputs =>
      some (inputs.recent_trauma == true && inputs.mobility_status == MobilityStatus.paralyzed),
    conditionSrc := "(inputs) => \x7b\n                return inputs.recent_trauma === true && inputs.mobility_status === \x27paralyzed\x27;\n            \x7d",
    urgency := "EMERGENCY" }

def ruleGeneralTrauma : Rule :=
  { priority := 3, id := "GENERAL_TRAUMA", name := "General Traumatic Injury",
    condition := fun inputs => some (inputs.recent_trauma == true),
    conditionSrc := "(inputs) => \x7b\n                return inputs.recent_trauma === true;\n            \x7d",
    urgency := "EMERGENCY" }

def ruleSaddleThrombus : Rule :=
  { priority := 4, id := "SADDLE_THROMBUS",
    name := "Feline Aortic Thromboembolism (Saddle Thrombus)",
    condition := fun inputs =>
      some (inputs.mobility_status != MobilityStatus.normal &&
            inputs.pain_signs == true &&
            inputs.cold_limbs == true),
    conditionSrc := "(inputs) => \x7b\n                return inputs.mobility_status !== \x27normal\x27 && \n                       inputs.pain_signs === true && \n                       inputs.cold_limbs === true;\n            \x7d",
    urgency := "EMERGENCY" }

def ruleAcuteToxicity : Rule :=
  { priority := 5, id := "ACUTE_TOXICITY", name := "Acute Toxicity (Poisoning)",
    condition := fun inputs =>
      some (inputs.onset_speed == OnsetSpeed.sudden &&
            inputs.seizures == SeizureLevel.severe &&
            inputs.eye_signs == true),
    conditionSrc := "(inputs) => \x7b\n                return inputs.onset_speed === \x27sudden\x27 && \n                       inputs.seizures === \x27severe\x27 && \n                       inputs.eye_signs === true;\n            \x7d",
    urgency := "EMERGENCY" }

def ruleHypoglycemia : Rule :=
  { priority := 6, id := "HYPOGLYCEMIA", name := "Severe Hypoglycemia",
    condition := fun inputs =>
      some (inputs.age_group == AgeGroup.kitten &&
            inputs.onset_speed == OnsetSpeed.sudden &&
            inputs.seizures != SeizureLevel.none),
    conditionSrc := "(inputs) => \x7b\n                return inputs.age_group === \x27kitten\x27 && \n                       inputs.onset_speed === \x27sudden\x27 && \n                       inputs.seizures !== \x27none\x27;\n            \x7d",
    urgency := "HIGH" }

def ruleThiamineDeficiency : Rule :=
  { priority := 7, id := "THIAMINE_DEFICIENCY", name := "Thiamine Deficiency (Vitamin B1)",
    condition := fun inputs => some (inputs.neck_flexion == true),
    conditionSrc := "(inputs) => \x7b\n                return inputs.neck_flexion === true;\n            \x7d",
    urgency := "MODERATE" }

def ruleHypertension : Rule :=
  { priority := 8, id := "HYPERTENSION", name := "Systemic Hypertension (High Blood Pressure)",
    condition := fun inputs =>
      some (inputs.age_group == AgeGroup.senior &&
            inputs.onset_speed == OnsetSpeed.sudden &&
            (inputs.seizures == SeizureLevel.mild || inputs.eye_signs == true) &&
            inputs.mobility_status == MobilityStatus.normal),
    conditionSrc := "(inputs) => \x7b\n                return inputs.age_group === \x27senior\x27 && \n                       inputs.onset_speed === \x27sudden\x27 && \n                       (inputs.seizures === \x27mild\x27 || inputs.eye_signs === true) && \n                       inputs.mobility_status === \x27normal\x27;\n            \x7d",
    urgency := "HIGH" }

def ruleHepaticEncephalopathy : Rule :=
  { priority := 9, id := "HEPATIC_ENCEPHALOPATHY", name := "Hepatic Encephalopathy (Liver Shunt)",
    condition := fun inputs =>
      some ((inputs.age_group == AgeGroup.kitten || inputs.age_group == AgeGroup.adult) &&
            inputs.seizures == SeizureLevel.mild &&
            inputs.mobility_status == MobilityStatus.wobbly),
    conditionSrc := "(inputs) => \x7b\n                return (inputs.age_group === \x27kitten\x27 || inputs.age_group === \x27adult\x27) && \n                       inputs.seizures === \x27mild\x27 && \n                       inputs.mobility_status === \x27wobbly\x27;\n            \x7d",
    urgency := "MODERATE" }

def ruleHypocalcemia : Rule :=
  { priority := 10, id := "HYPOCALCEMIA", name := "Acute Hypocalcemia (Eclampsia)",
    condition := fun inputs =>
      some (inputs.onset_speed == OnsetSpeed.sudden &&
            inputs.seizures == SeizureLevel.mild &&
            inputs.mobility_status == MobilityStatus.wobbly),
    conditionSrc := "(inputs) => \x7b\n                return inputs.onset_speed === \x27sudden\x27 && \n                       inputs.seizures === \x27mild\x27 && \n                       inputs.mobility_status === \x27wobbly\x27;\n            \x7d",
    urgency := "HIGH" }

def ruleBotulismTickParalysis : Rule :=
  { priority := 11, id := "BOTULISM_TICK_PARALYSIS", name := "Botulism / Tick Paralysis",
    condition := fun inputs =>
      some (inputs.mobility_status == MobilityStatus.paralyzed &&
            inputs.pain_signs == false &&
            inputs.onset_speed == OnsetSpeed.sudden &&
            inputs.seizures == SeizureLevel.none),
    conditionSrc := "(inputs) => \x7b\n                return inputs.mobility_status === \x27paralyzed\x27 && \n                       inputs.pain_signs === false && \n                       inputs.onset_speed === \x27sudden\x27 && \n                       inputs.seizures === \x27none\x27;\n            \x7d",
    urgency := "HIGH" }

def ruleNeuroFip : Rule :=
  { priority := 12, id := "NEURO_FIP", name := "Feline Infectious Peritonitis (Neurological Form)",
    condition := fun inputs =>
      some (inputs.age_group == AgeGroup.kitten &&
            inputs.onset_speed == OnsetSpeed.gradual &&
            (inputs.mobility_status == MobilityStatus.wobbly ||
             inputs.seizures == SeizureLevel.mild)),
    conditionSrc := "(inputs) => \x7b\n                return inputs.age_group === \x27kitten\x27 && \n                       inputs.onset_speed === \x27gradual\x27 && \n                       (inputs.mobility_status === \x27wobbly\x27 || inputs.seizures === \x27mild\x27);\n            \x7d",
    urgency := "HIGH" }

def ruleToxoplasmosis : Rule :=
  { priority := 13, id := "TOXOPLASMOSIS", name := "Toxoplasmosis",
    condition := fun inputs =>
      some (inputs.age_group != AgeGroup.senior &&
            inputs.onset_speed == OnsetSpeed.gradual &&
            inputs.eye_signs == true),
    conditionSrc := "(inputs) => \x7b\n                return inputs.age_group !== \x27senior\x27 && \n                       inputs.onset_speed === \x27gradual\x27 && \n                       inputs.eye_signs === true;\n            \x7d",
    urgency := "MODERATE" }

def ruleOtitisInterna : Rule :=
  { priority := 14, id := "OTITIS_INTERNA", name := "Otitis Interna (Inner Ear Infection)",
    condition := fun inputs =>
      some (inputs.ear_issues == true &&
            (inputs.head_tilt == true || inputs.mobility_status == MobilityStatus.wobbly)),
    conditionSrc := "(inputs) => \x7b\n                return inputs.ear_issues === true && \n                       (inputs.head_tilt === true || inputs.mobility_status === \x27wobbly\x27);\n            \x7d",
    urgency := "MODERATE" }

def ruleNasopharyngealPolyp : Rule :=
  { priority := 15, id := "NASOPHARYNGEAL_POLYP", name := "Nasopharyngeal Polyp",
    condition := fun inputs =>
      some ((inputs.age_group == AgeGroup.kitten || inputs.age_group == AgeGroup.adult) &&
            inputs.ear_issues == true &&
            inputs.head_tilt == true &&
            inputs.onset_speed == OnsetSpeed.gradual),
    conditionSrc := "(inputs) => \x7b\n                return (inputs.age_group === \x27kitten\x27 || inputs.age_group === \x27adult\x27) && \n                       inputs.ear_issues === true && \n                       inputs.head_tilt === true && \n                       inputs.onset_speed === \x27gradual\x27;\n            \x7d",
    urgency := "MODERATE" }

def ruleMeningitisEncephalitis : Rule :=
  { priority := 16, id := "MENINGITIS_ENCEPHALITIS", name := "Meningitis/Encephalitis",
    condition := fun inputs =>
      some (inputs.onset_speed == OnsetSpeed.sudden &&
            inputs.pain_signs == true &&
            inputs.seizures != SeizureLevel.none),
    conditionSrc := "(inputs) => \x7b\n                return inputs.onset_speed === \x27sudden\x27 && \n                       inputs.pain_signs === true && \n                       inputs.seizures !== \x27none\x27;\n            \x7d",
    urgency := "HIGH" }

def ruleBrainTumorMeningioma : Rule :=
  { priority := 17, id := "BRAIN_TUMOR_MENINGIOMA", name := "Brain Tumor (Meningioma)",
    condition := fun inputs =>
      some (inputs.age_group == AgeGroup.senior &&
            inputs.onset_speed == OnsetSpeed.gradual &&
            inputs.seizures == SeizureLevel.mild),
    conditionSrc := "(inputs) => \x7b\n                return inputs.age_group === \x27senior\x27 && \n                       inputs.onset_speed === \x27gradual\x27 && \n                       inputs.seizures === \x27mild\x27;\n            \x7d",
    urgency := "HIGH" }

def ruleHighGradeBrainTumor : Rule :=
  { priority := 18, id := "HIGH_GRADE_BRAIN_TUMOR", name := "High-Grade Brain Tumor",
    condition := fun inputs =>
      some (inputs.age_group == AgeGroup.senior &&
            inputs.onset_speed == OnsetSpeed.gradual &&
            inputs.seizures == SeizureLevel.severe),
    conditionSrc := "(inputs) => \x7b\n                return inputs.age_group === \x27senior\x27 && \n                       inputs.onset_speed === \x27gradual\x27 && \n                       inputs.seizures === \x27severe\x27;\n            \x7d",
    urgency := "HIGH" }

def ruleSpinalTumorLymphoma : Rule :=
  { priority := 19, id := "SPINAL_TUMOR_LYMPHOMA", name := "Spinal Tumor (Lymphoma)",
    condition := fun inputs =>
      some (inputs.age_group == AgeGroup.senior &&
            inputs.mobility_status == MobilityStatus.paralyzed &&
            inputs.onset_speed == OnsetSpeed.gradual),
    conditionSrc := "(inputs) => \x7b\n                return inputs.age_group === \x27senior\x27 && \n                       inputs.mobility_status === \x27paralyzed\x27 && \n                       inputs.onset_speed === \x27gradual\x27;\n            \x7d",
    urgency := "HIGH" }

def ruleSpinalTumorEarly : Rule :=
  { priority := 20, id := "SPINAL_TUMOR_EARLY", name := "Spinal Tumor (Early Stage)",
    condition := fun inputs =>
      some (inputs.age_group == AgeGroup.senior &&
            inputs.mobility_status == MobilityStatus.wobbly &&
            inputs.pain_signs == false &&
            inputs.onset_speed == OnsetSpeed.gradual),
    conditionSrc := "(inputs) => \x7b\n                return inputs.age_group === \x27senior\x27 && \n                       inputs.mobility_status === \x27wobbly\x27 && \n                       inputs.pain_signs === false && \n                       inputs.onset_speed === \x27gradual\x27;\n            \x7d",
    urgency := "MODERATE" }

def ruleHydrocephalus : Rule :=
  { priority := 21, id := "HYDROCEPHALUS", name := "Hydrocephalus",
    condition := fun inputs =>
      some (inputs.age_group == AgeGroup.kitten &&
            inputs.head_tilt == true &&
            inputs.seizures == SeizureLevel.mild &&
            inputs.onset_speed == OnsetSpeed.gradual),
    conditionSrc := "(inputs) => \x7b\n                return inputs.age_group === \x27kitten\x27 && \n                       inputs.head_tilt === true && \n                       inputs.seizures === \x27mild\x27 && \n                       inputs.onset_speed === \x27gradual\x27;\n            \x7d",
    urgency := "MODERATE" }

def ruleIvdd : Rule :=
  { priority := 22, id := "IVDD", name := "Intervertebral Disc Disease (IVDD)",
    condition := fun inputs =>
      some (inputs.mobility_status != MobilityStatus.normal &&
            inputs.pain_signs == true &&
            inputs.onset_speed == OnsetSpeed.sudden),
    conditionSrc := "(inputs) => \x7b\n                return inputs.mobility_status !== \x27normal\x27 && \n                       inputs.pain_signs === true && \n                       inputs.onset_speed === \x27sudden\x27;\n            \x7d",
    urgency := "HIGH" }

def ruleFelineHyperesthesia : Rule :=
  { priority := 23, id := "FELINE_HYPERESTHESIA", name := "Feline Hyperesthesia Syndrome",
    condition := fun inputs =>
      some (inputs.age_group == AgeGroup.adult &&
            inputs.seizures == SeizureLevel.mild &&
            inputs.pain_signs == true),
    conditionSrc := "(inputs) => \x7b\n                return inputs.age_group === \x27adult\x27 && \n                       inputs.seizures === \x27mild\x27 && \n                       inputs.pain_signs === true;\n            \x7d",
    urgency := "MODERATE" }

def ruleIdiopathicEpilepsy : Rule :=
  { priority := 24, id := "IDIOPATHIC_EPILEPSY", name := "Idiopathic Epilepsy",
    condition := fun inputs =>
      some (inputs.age_group == AgeGroup.adult &&
            inputs.seizures == SeizureLevel.severe &&
            inputs.mobility_status == MobilityStatus.normal),
    conditionSrc := "(inputs) => \x7b\n                return inputs.age_group === \x27adult\x27 && \n                       inputs.seizures === \x27severe\x27 && \n                       inputs.mobility_status === \x27normal\x27;\n            \x7d",
    urgency := "MODERATE" }

def ruleDiabeticNeuropathy : Rule :=
  { priority := 25, id := "DIABETIC_NEUROPATHY", name := "Diabetic Neuropathy",
    condition := fun inputs =>
      some (inputs.age_group == AgeGroup.senior &&
            inputs.mobility_status == MobilityStatus.wobbly &&
            inputs.onset_speed == OnsetSpeed.gradual),
    conditionSrc := "(inputs) => \x7b\n                return inputs.age_group === \x27senior\x27 && \n                       inputs.mobility_status === \x27wobbly\x27 && \n                       inputs.onset_speed === \x27gradual\x27;\n            \x7d",
    urgency := "MODERATE" }

def ruleCerebellarHypoplasia : Rule :=
  { priority := 26, id := "CEREBELLAR_HYPOPLASIA", name := "Cerebellar Hypoplasia",
    condition := fun inputs =>
      some (inputs.age_group == AgeGroup.kitten &&
            inputs.mobility_status == MobilityStatus.wobbly &&
            inputs.onset_speed == OnsetSpeed.gradual &&
            inputs.seizures == SeizureLevel.none),
    conditionSrc := "(inputs) => \x7b\n                return inputs.age_group === \x27kitten\x27 && \n                       inputs.mobility_status === \x27wobbly\x27 && \n                       inputs.onset_speed === \x27gradual\x27 && \n                       inputs.seizures === \x27none\x27;\n            \x7d",
    urgency := "LOW" }

def ruleIschemicStroke : Rule :=
  { priority := 27, id := "ISCHEMIC_STROKE", name := "Ischemic Stroke",
    condition := fun inputs =>
      some (inputs.age_group == AgeGroup.senior &&
            inputs.onset_speed == OnsetSpeed.sudden &&
            inputs.head_tilt == true &&
            inputs.ear_issues == false),
    conditionSrc := "(inputs) => \x7b\n                return inputs.age_group === \x27senior\x27 && \n                       inputs.onset_speed === \x27sudden\x27 && \n                       inputs.head_tilt === true && \n                       inputs.ear_issues === false;\n            \x7d",
    urgency := "MODERATE" }

def ruleIdiopathicVestibular : Rule :=
  { priority := 28, id := "IDIOPATHIC_VESTIBULAR", name := "Idiopathic Vestibular Syndrome",
    condition := fun inputs =>
      some (inputs.onset_speed == OnsetSpeed.sudden &&
            (inputs.head_tilt == true || inputs.eye_signs == true) &&
            inputs.mobility_status == MobilityStatus.wobbly),
    conditionSrc := "(inputs) => \x7b\n                return inputs.onset_speed === \x27sudden\x27 && \n                       (inputs.head_tilt === true || inputs.eye_signs === true) && \n                       inputs.mobility_status === \x27wobbly\x27;\n            \x7d",
    urgency := "MODERATE" }

def ruleCognitiveDysfunction : Rule :=
  { priority := 29, id := "COGNITIVE_DYSFUNCTION", name := "Cognitive Dysfunction Syndrome (Dementia)",
    condition := fun inputs =>
      some (inputs.age_group == AgeGroup.senior &&
            inputs.onset_speed == OnsetSpeed.gradual &&
            inputs.seizures == SeizureLevel.none),
    conditionSrc := "(inputs) => \x7b\n                return inputs.age_group === \x27senior\x27 && \n                       inputs.onset_speed === \x27gradual\x27 && \n                       inputs.seizures === \x27none\x27;\n            \x7d",
    urgency := "LOW" }

def ruleUndetermined : Rule :=
  { priority := 30, id := "UNDETERMINED", name := "Undetermined Neurological Anomaly",
    condition := fun _inputs => some true,
    conditionSrc := "(inputs) => \x7b\n                return true;\n            \x7d",
    urgency := "MODERATE" }

/-- The knowledge base, in the order of `data.js` (priority ascending). -/
def diagnosticRules : List Rule :=
  [ruleTraumaticBrainInjury, ruleSpinalFracture, ruleGeneralTrauma,
   ruleSaddleThrombus, ruleAcuteToxicity, ruleHypoglycemia,
   ruleThiamineDeficiency, ruleHypertension, ruleHepaticEncephalopathy,
   ruleHypocalcemia, ruleBotulismTickParalysis, ruleNeuroFip,
   ruleToxoplasmosis, ruleOtitisInterna, ruleNasopharyngealPolyp,
   ruleMeningitisEncephalitis, ruleBrainTumorMeningioma, ruleHighGradeBrainTumor,
   ruleSpinalTumorLymphoma, ruleSpinalTumorEarly, ruleHydrocephalus,
   ruleIvdd, ruleFelineHyperesthesia, ruleIdiopathicEpilepsy,
   ruleDiabeticNeuropathy, ruleCerebellarHypoplasia, ruleIschemicStroke,
   ruleIdiopathicVestibular, ruleCognitiveDysfunction, ruleUndetermined]

/-- Stable insertion for the engine constructor's safety sort
`rules.sort((a, b) => a.priority - b.priority)`. -/
def insertByPriorityAsc (x : Rule) : List Rule → List Rule
  | [] => [x]
  | y :: ys => if y.priority < x.priority then y :: insertByPriorityAsc x ys
               else x :: y :: ys

/-- The engine constructor's stable sort of the rule table by ascending
priority. -/
def sortByPriorityAsc : List Rule → List Rule :=
  List.foldr insertByPriorityAsc []

/-- `this.sortedRules`: the knowledge base sorted by ascending priority. -/
def sortedRules : List Rule :=
  sortByPriorityAsc diagnosticRules

/-- The table is already priority-ascending, so the safety sort is the
identity on it. -/
theorem sortedRules_eq : sortedRules = diagnosticRules := rfl

/-! ## Raw inputs and `validateCompleteInputs` (`engine.js`)

A raw observation as submitted by the caller: every field may be absent
(`none` models the JavaScript `undefined`).  Categorical fields are raw
strings; boolean fields are raw booleans (the `typeof ... !== 'boolean'`
check of the source can never fire in this typed model and contributes no
error). -/

structure RawObs where
  age_group : Option String
  onset_speed : Option String
  mobility_status : Option String
  seizures : Option String
  eye_signs : Option Bool
  pain_signs : Option Bool
  head_tilt : Option Bool
  recent_trauma : Option Bool
  cold_limbs : Option Bool
  neck_flexion : Option Bool
  ear_issues : Option Bool
deriving DecidableEq, Repr

/-- Result of `validateCompleteInputs` (the `completeness` payload is display
only and omitted). -/
structure ValidationResult where
  isValid : Bool
  errors : List String
deriving DecidableEq, Repr

/-- A raw categorical value is missing when it is falsy: absent or the empty
string (`!inputs[field] || inputs[field] === ''`). -/
def missingCategorical : Option String → Bool
  | Option.none => true
  | some s => s == ""

/-- The enum check of `validateCompleteInputs`: fires only on a truthy value
outside the allowed list. -/
def enumErrors (v : Option String) (valid : List String) (msg : String) : List String :=
  match v with
  | Option.none => []
  | some s => if s != "" && !(valid.contains s) then [msg ++ s] else []

/-- `validateCompleteInputs(inputs)`: all 4 categorical and all 7 boolean
fields must be present, and present categorical values must be in their
enumerated range.  Error messages are produced in the order of the source. -/
def validateCompleteInputs (inputs : RawObs) : ValidationResult :=
  let requiredChecks : List (String × Option String) :=
    [("age_group", inputs.age_group), ("onset_speed", inputs.onset_speed),
     ("mobility_status", inputs.mobility_status), ("seizures", inputs.seizures)]
  let booleanChecks : List (String × Option Bool) :=
    [("eye_signs", inputs.eye_signs), ("pain_signs", inputs.pain_signs),
     ("head_tilt", inputs.head_tilt), ("recent_trauma", inputs.recent_trauma),
     ("cold_limbs", inputs.cold_limbs), ("neck_flexion", inputs.neck_flexion),
     ("ear_issues", inputs.ear_issues)]
  let missingErrors := requiredChecks.filterMap (fun p =>
    if missingCategorical p.2 then some ("Missing required field: " ++ p.1) else Option.none)
  let booleanErrors := booleanChecks.filterMap (fun p =>
    if p.2.isNone then
      some ("Boolean field " ++ p.1 ++ " must be explicitly set (true/false)")
    else Option.none)
  let errors :=
    missingErrors ++ booleanErrors ++
    enumErrors inputs.age_group ["kitten", "adult", "senior"] "Invalid age group: " ++
    enumErrors inputs.onset_speed ["sudden", "gradual"] "Invalid onset speed: " ++
    enumErrors inputs.mobility_status ["normal", "wobbly", "paralyzed"]
      "Invalid mobility status: " ++
    enumErrors inputs.seizures ["none", "mild", "severe"] "Invalid seizure status: "
  { isValid := errors.isEmpty, errors := errors }

/-! Parsing a validated raw observation into the typed `Observation` (the
identification of enumerated strings with the enum types). -/

def parseAgeGroup : String → Option AgeGroup
  | "kitten" => some AgeGroup.kitten
  | "adult" => some AgeGroup.adult
  | "senior" => some AgeGroup.senior
  | _ => Option.none

def parseOnsetSpeed : String → Option OnsetSpeed
  | "sudden" => some OnsetSpeed.sudden
  | "gradual" => some OnsetSpeed.gradual
  | _ => Option.none

def parseMobilityStatus : String → Option MobilityStatus
  | "normal" => some MobilityStatus.normal
  | "wobbly" => some MobilityStatus.wobbly
  | "paralyzed" => some MobilityStatus.paralyzed
  | _ => Option.none

def parseSeizureLevel : String → Option SeizureLevel
  | "none" => some SeizureLevel.none
  | "mild" => some SeizureLevel.mild
  | "severe" => some SeizureLevel.severe
  | _ => Option.none

/-- A raw observation passes to the engine as the typed `Observation` exactly
when all 11 fields are present and the categorical strings are in range. -/
def parseObservation (r : RawObs) : Option Observation := do
  let ag ← r.age_group
  let a ← parseAgeGroup ag
  let os ← r.onset_speed
  let ons ← parseOnsetSpeed os
  let ms ← r.mobility_status
  let mob ← parseMobilityStatus ms
  let sz ← r.seizures
  let sei ← parseSeizureLevel sz
  let ey ← r.eye_signs
  let pa ← r.pain_signs
  let ht ← r.head_tilt
  let rt ← r.recent_trauma
  let cl ← r.cold_limbs
  let nf ← r.neck_flexion
  let ei ← r.ear_issues
  pure { age_group := a, onset_speed := ons, mobility_status := mob, seizures := sei,
         eye_signs := ey, pain_signs := pa, head_tilt := ht, recent_trauma := rt,
         cold_limbs := cl, neck_flexion := nf, ear_issues := ei }

/-! ## The waterfall `runDiagnosis` -/

/-- The diagnosis result of the waterfall engine (`createEnhancedDiagnosisResult`;
display-only fields such as icon, color, timestamp and the rendered explanation
strings are omitted). -/
structure DiagnosisResult where
  diagnosis : String
  priority : Int
  ruleId : String
  urgency : String
  rulesEvaluated : Nat
  totalMatches : Nat
  winningScore : Score

/-- `createEnhancedDiagnosisResult(bestMatch, inputs, allMatches)`. -/
def createEnhancedDiagnosisResult (bestMatch : Match) (allMatches : List Match) :
    DiagnosisResult :=
  { diagnosis := bestMatch.rule.name
    priority := bestMatch.rule.priority
    ruleId := bestMatch.rule.id
    urgency := bestMatch.rule.urgency
    rulesEvaluated := sortedRules.length
    totalMatches := allMatches.length
    winningScore := bestMatch.score }

/-- The core of `runDiagnosis` after validation: evaluate all rules and take
the highest-scoring match (`allMatches[0]`).  `none` models the
`'System error: No diagnostic rules matched'` throw. -/
def runDiagnosis (inputs : Observation) : Option DiagnosisResult :=
  let allMatches := evaluateAllRules sortedRules inputs
  match allMatches with
  | [] => Option.none
  | bestMatch :: _ => some (createEnhancedDiagnosisResult bestMatch allMatches)

/-! ## Test fixtures -/

/-- An adult cat with gradual onset and no clinical signs: no rule except the
catch-all matches this observation. -/
def obsQuiet : Observation :=
  { age_group := AgeGroup.adult, onset_speed := OnsetSpeed.gradual,
    mobility_status := MobilityStatus.normal, seizures := SeizureLevel.none,
    eye_signs := false, pain_signs := false, head_tilt := false,
    recent_trauma := false, cold_limbs := false, neck_flexion := false,
    ear_issues := false }

/-- A cat with recent trauma and severe seizures (matches several rules). -/
def obsTrauma : Observation :=
  { age_group := AgeGroup.adult, onset_speed := OnsetSpeed.sudden,
    mobility_status := MobilityStatus.normal, seizures := SeizureLevel.severe,
    eye_signs := false, pain_signs := false, head_tilt := false,
    recent_trauma := true, cold_limbs := false, neck_flexion := false,
    ear_issues := false }

/-- The raw form of `obsQuiet` (valid). -/
def rawQuiet : RawObs :=
  { age_group := some "adult", onset_speed := some "gradual",
    mobility_status := some "normal", seizures := some "none",
    eye_signs := some false, pain_signs := some false, head_tilt := some false,
    recent_trauma := some false, cold_limbs := some false,
    neck_flexion := some false, ear_issues := some false }

/-- The raw form of `obsTrauma` (valid; derives several diagnosis facts in
the forward-chaining engine). -/
def rawTrauma : RawObs :=
  { age_group := some "adult", onset_speed := some "sudden",
    mobility_status := some "normal", seizures := some "severe",
    eye_signs := some false, pain_signs := some false, head_tilt := some false,
    recent_trauma := some true, cold_limbs := some false,
    neck_flexion := some false, ear_issues := some false }

/-- A completely empty raw observation (all 11 fields absent). -/
def rawEmpty : RawObs :=
  { age_group := Option.none, onset_speed := Option.none,
    mobility_status := Option.none, seizures := Option.none,
    eye_signs := Option.none, pain_signs := Option.none, head_tilt := Option.none,
    recent_trauma := Option.none, cold_limbs := Option.none,
    neck_flexion := Option.none, ear_issues := Option.none }

/-- A rule whose predicate always throws, for exercising the error-recovery
path of `evaluateAllRules`. -/
def throwingRule : Rule :=
  { priority := 99, id := "THROWING_RULE", name := "Throwing Rule",
    condition := fun _ => Option.none,
    conditionSrc := "(inputs) => \x7b\n                throw new Error(\x27boom\x27);\n            \x7d",
    urgency := "LOW" }

/-! ## General lemmas: the stable descending sort -/

theorem sortByScoreDesc_cons (x : Match) (xs : List Match) :
    sortByScoreDesc (x :: xs) = insertByScoreDesc x (sortByScoreDesc xs) := rfl

theorem insertByScoreDesc_ne_nil (x : Match) (l : List Match) :
    insertByScoreDesc x l ≠ [] := by
  cases l with
  | nil => simp [insertByScoreDesc]
  | cons y ys =>
    unfold insertByScoreDesc
    split <;> simp

theorem sortByScoreDesc_eq_nil {l : List Match} (h : sortByScoreDesc l = []) : l = [] := by
  cases l with
  | nil => rfl
  | cons x xs => exact absurd h (insertByScoreDesc_ne_nil x (sortByScoreDesc xs))

/-- The head of the stable descending sort is a maximal-total element of the
input, and every element strictly before it in the input has a strictly
smaller total (stability: it is the *first* maximal element). -/
theorem sorted_head_spec :
    ∀ (l : List Match) (w : Match), (sortByScoreDesc l).head? = some w →
      (∀ z ∈ l, z.score.total ≤ w.score.total) ∧
      ∃ l₁ l₂, l = l₁ ++ w :: l₂ ∧ ∀ z ∈ l₁, z.score.total < w.score.total := by
  intro l
  induction l with
  | nil => intro w hw; simp [sortByScoreDesc] at hw
  | cons x xs ih =>
    intro w hw
    rw [sortByScoreDesc_cons] at hw
    cases hs : sortByScoreDesc xs with
    | nil =>
      have hxs : xs = [] := sortByScoreDesc_eq_nil hs
      rw [hs] at hw
      simp only [insertByScoreDesc, List.head?_cons, Option.some.injEq] at hw
      subst hw
      subst hxs
      refine ⟨?_, [], [], rfl, by simp⟩
      intro z hz
      simp only [List.mem_singleton] at hz
      subst hz
      exact le_refl _
    | cons y ys =>
      rw [hs] at hw
      by_cases hc : x.score.total < y.score.total
      · rw [show insertByScoreDesc x (y :: ys) = y :: insertByScoreDesc x ys from
          by simp [insertByScoreDesc, hc]] at hw
        simp only [List.head?_cons, Option.some.injEq] at hw
        subst hw
        obtain ⟨hmax, l₁, l₂, hsplit, hstrict⟩ := ih y (by rw [hs]; rfl)
        refine ⟨?_, x :: l₁, l₂, by rw [hsplit]; rfl, ?_⟩
        · intro z hz
          rcases List.mem_cons.mp hz with hzx | hzxs
          · subst hzx; exact le_of_lt hc
          · exact hmax z hzxs
        · intro z hz
          rcases List.mem_cons.mp hz with hzx | hzl
          · subst hzx; exact hc
          · exact hstrict z hzl
      · rw [show insertByScoreDesc x (y :: ys) = x :: y :: ys from
          by simp [insertByScoreDesc, hc]] at hw
        simp only [List.head?_cons, Option.some.injEq] at hw
        subst hw
        obtain ⟨hmax, _, _, _, _⟩ := ih y (by rw [hs]; rfl)
        refine ⟨?_, [], xs, rfl, by simp⟩
        intro z hz
        rcases List.mem_cons.mp hz with hzx | hzxs
        · subst hzx; exact le_refl _
        · exact le_trans (hmax z hzxs) (not_lt.mp hc)

/-! ## General lemmas: `collectMatches` -/

/-- Every collected match comes from a rule of the list whose predicate
returned `true`, carries that rule's weighted score, and records the rule's
position. -/
theorem collectMatches_mem :
    ∀ (rules : List Rule) (inputs : Observation) (i : Nat) (z : Match),
      z ∈ collectMatches rules inputs i →
      z.rule.condition inputs = some true ∧
      z.score = calculateWeightedScore z.rule inputs ∧
      z.priority = z.rule.priority ∧
      ∃ j, rules.get? j = some z.rule ∧ z.ruleIndex = i + j := by
  intro rules
  induction rules with
  | nil => intro inputs i z hz; simp [collectMatches] at hz
  | cons r rs ih =>
    intro inputs i z hz
    rw [collectMatches] at hz
    cases hcond : r.condition inputs with
    | none =>
      rw [hcond] at hz
      obtain ⟨h1, h2, h3, j, hj, hidx⟩ := ih inputs (i + 1) z hz
      exact ⟨h1, h2, h3, j + 1, by simpa using hj, by omega⟩
    | some b =>
      rw [hcond] at hz
      cases b with
      | false =>
        obtain ⟨h1, h2, h3, j, hj, hidx⟩ := ih inputs (i + 1) z hz
        exact ⟨h1, h2, h3, j + 1, by simpa using hj, by omega⟩
      | true =>
        rcases List.mem_cons.mp hz with hzh | hzt
        · subst hzh
          exact ⟨hcond, rfl, rfl, 0, by simp, by simp⟩
        · obtain ⟨h1, h2, h3, j, hj, hidx⟩ := ih inputs (i + 1) z hzt
          exact ⟨h1, h2, h3, j + 1, by simpa using hj, by omega⟩

/-- Completeness (no short-circuiting): every rule of the list whose predicate
returns `true` produces a match, whatever its position. -/
theorem collectMatches_complete :
    ∀ (rules : List Rule) (inputs : Observation) (i j : Nat) (r : Rule),
      rules.get? j = some r → r.condition inputs = some true →
      ∃ z, z ∈ collectMatches rules inputs i ∧ z.rule = r ∧ z.ruleIndex = i + j ∧
        z.score = calculateWeightedScore r inputs := by
  intro rules
  induction rules with
  | nil => intro inputs i j r hj; simp at hj
  | cons hd tl ih =>
    intro inputs i j r hj hcond
    cases j with
    | zero =>
      have hhd : hd = r := by simpa using hj
      subst hhd
      refine ⟨{ rule := hd, priority := hd.priority, ruleIndex := i,
                score := calculateWeightedScore hd inputs }, ?_, rfl, by simp, rfl⟩
      rw [collectMatches, hcond]
      exact List.mem_cons_self _ _
    | succ j' =>
      simp only [List.get?_cons_succ] at hj
      obtain ⟨z, hz, hzr, hidx, hsc⟩ := ih inputs (i + 1) j' r hj hcond
      refine ⟨z, ?_, hzr, by omega, hsc⟩
      rw [collectMatches]
      cases hc2 : hd.condition inputs with
      | none => exact hz
      | some b =>
        cases b with
        | false => exact hz
        | true => exact List.mem_cons_of_mem _ hz

/-- The number of matches equals the number of rules whose predicate returned
`true` (every rule is tested). -/
theorem collectMatches_length :
    ∀ (rules : List Rule) (inputs : Observation) (i : Nat),
      (collectMatches rules inputs i).length =
        rules.countP (fun r => decide (r.condition inputs = some true)) := by
  intro rules
  induction rules with
  | nil => intro inputs i; simp [collectMatches]
  | cons r rs ih =>
    intro inputs i
    rw [collectMatches]
    cases hcond : r.condition inputs with
    | none => simp [List.countP_cons, hcond, ih inputs (i + 1)]
    | some b =>
      cases b with
      | false => simp [List.countP_cons, hcond, ih inputs (i + 1)]
      | true => simp [List.countP_cons, hcond, ih inputs (i + 1)]

/-- The collected matches are in strictly increasing position order. -/
theorem collectMatches_pairwise :
    ∀ (rules : List Rule) (inputs : Observation) (i : Nat),
      List.Pairwise (fun a b => a.ruleIndex < b.ruleIndex)
        (collectMatches rules inputs i) := by
  intro rules
  induction rules with
  | nil => intro inputs i; simp [collectMatches]
  | cons r rs ih =>
    intro inputs i
    rw [collectMatches]
    cases hcond : r.condition inputs with
    | none => exact ih inputs (i + 1)
    | some b =>
      cases b with
      | false => exact ih inputs (i + 1)
      | true =>
        refine List.pairwise_cons.mpr ⟨?_, ih inputs (i + 1)⟩
        intro z hz
        obtain ⟨_, _, _, j, _, hidx⟩ := collectMatches_mem rs inputs (i + 1) z hz
        simp only []
        omega

/-! ## Score facts -/

/-- The weighted score of a rule does not depend on the observation: every
component is computed from the rule record alone (`analyzeRuleComplexity`
receives the inputs but never reads them). -/
theorem calculateWeightedScore_obs_indep (r : Rule) (o o₂ : Observation) :
    calculateWeightedScore r o = calculateWeightedScore r o₂ := rfl

/-- In the knowledge base, the catch-all rule scores exactly
10 (priority) + 50 (complexity floor) + 0 + 25 (MODERATE) = 85 points. -/
theorem undetermined_total (r : Rule) (hr : r ∈ diagnosticRules)
    (hid : r.id = "UNDETERMINED") (o : Observation) :
    (calculateWeightedScore r o).total = 85 := by
  rw [calculateWeightedScore_obs_indep r o obsQuiet]
  have hall : diagnosticRules.all
      (fun r => !(r.id == "UNDETERMINED") ||
        ((calculateWeightedScore r obsQuiet).total == 85)) = true := by decide
  have h := List.all_eq_true.mp hall r hr
  rw [hid] at h
  simpa using h

/-- In the knowledge base, every rule other than the catch-all scores at least
170 points (the minimum, 170, is attained by COGNITIVE_DYSFUNCTION). -/
theorem other_total_ge (r : Rule) (hr : r ∈ diagnosticRules)
    (hid : r.id ≠ "UNDETERMINED") (o : Observation) :
    170 ≤ (calculateWeightedScore r o).total := by
  rw [calculateWeightedScore_obs_indep r o obsQuiet]
  have hall : diagnosticRules.all
      (fun r => (r.id == "UNDETERMINED") ||
        decide (170 ≤ (calculateWeightedScore r obsQuiet).total)) = true := by decide
  have h := List.all_eq_true.mp hall r hr
  rcases Bool.or_eq_true _ _ |>.mp h with h1 | h2
  · exact absurd (by simpa using h1) hid
  · simpa using h2

/-- The catch-all is the only rule of the knowledge base whose predicate is
always `true`: every other rule rejects the quiet observation. -/
theorem only_undetermined_always_true (r : Rule) (hr : r ∈ diagnosticRules)
    (h : ∀ o, r.condition o = some true) : r.id = "UNDETERMINED" := by
  by_contra hid
  have hall : diagnosticRules.all
      (fun r => (r.id == "UNDETERMINED") ||
        !(r.condition obsQuiet == some true)) = true := by decide
  have hres := List.all_eq_true.mp hall r hr
  rcases Bool.or_eq_true _ _ |>.mp hres with h1 | h2
  · exact hid (by simpa using h1)
  · exact (by simpa using h2 : ¬ r.condition obsQuiet = some true) (h obsQuiet)

/-! ## Claim C4 -/

/-- Claim C4: for every rule whose predicate returns `true` on a valid
observation, the score's `total` equals exactly the sum of its four components
(priority + complexity + specificity + severity), and the total is strictly
positive because the complexity component is at least `1 × 50`. -/
theorem score_total_sum_pos (r : Rule) (o : Observation)
    (h : r.condition o = some true) :
    (calculateWeightedScore r o).total =
      (calculateWeightedScore r o).priority + (calculateWeightedScore r o).complexity +
      (calculateWeightedScore r o).specificity + (calculateWeightedScore r o).severity ∧
    (50 : Int) ≤ (calculateWeightedScore r o).complexity ∧
    0 < (calculateWeightedScore r o).total := by
  refine ⟨rfl, ?_, ?_⟩ <;>
  · have hp : (0 : Int) ≤ max 0 (31 - r.priority) * 10 :=
      mul_nonneg (le_max_left _ _) (by norm_num)
    have hcmax : 1 ≤ (analyzeRuleComplexity r o).conditionsMatched := le_max_left _ _
    have hc : (50 : Int) ≤ ((analyzeRuleComplexity r o).conditionsMatched : Int) * 50 := by
      have : (1 : Int) ≤ ((analyzeRuleComplexity r o).conditionsMatched : Int) := by
        exact_mod_cast hcmax
      nlinarith
    have hs : (0 : Int) ≤ getSpecificityBonus r.id := by
      unfold getSpecificityBonus; split_ifs <;> norm_num
    have hv : (0 : Int) ≤ getSeverityBoost r.urgency := by
      unfold getSeverityBoost; split_ifs <;> norm_num
    simp only [calculateWeightedScore]
    linarith

/-- Witness for C4 at the GENERAL_TRAUMA rule and the trauma observation. -/
theorem score_total_sum_pos_witness :
    ruleGeneralTrauma.condition obsTrauma = some true ∧
    0 < (calculateWeightedScore ruleGeneralTrauma obsTrauma).total :=
  ⟨by decide, (score_total_sum_pos ruleGeneralTrauma obsTrauma (by decide)).2.2⟩

/-! ## Claim C5 -/

/-- Claim C5: the complexity component of a rule's score is a static property
of the predicate's source text, independent of the observation: any two
observations yield the same component, and that component equals 50 × the
number of distinct observation field names (out of the 11) occurring in the
predicate's source text, with a floor of one field. -/
theorem complexity_obs_independent (r : Rule) (o o₂ : Observation) :
    (calculateWeightedScore r o).complexity = (calculateWeightedScore r o₂).complexity ∧
    (calculateWeightedScore r o).complexity =
      50 * ((max 1 (inputFields.filter
        (fun field => jsIncludes r.conditionSrc field)).length : Nat) : Int) := by
  constructor
  · rfl
  · show ((analyzeRuleComplexity r o).conditionsMatched : Int) * 50 = _
    rw [mul_comm]
    rfl

/-! ## Claim C6 -/

/-- `collectMatches` distributes over appending rule lists (the second block
is evaluated at the shifted positions). -/
theorem collectMatches_append :
    ∀ (xs ys : List Rule) (inputs : Observation) (i : Nat),
      collectMatches (xs ++ ys) inputs i =
        collectMatches xs inputs i ++ collectMatches ys inputs (i + xs.length) := by
  intro xs
  induction xs with
  | nil => intro ys inputs i; simp [collectMatches]
  | cons r rs ih =>
    intro ys inputs i
    have hidx : (i + 1) + rs.length = i + (r :: rs).length := by
      simp only [List.length_cons]
      omega
    cases hcond : r.condition inputs with
    | none =>
      simp only [List.cons_append, collectMatches, hcond]
      rw [← hidx]
      exact ih ys inputs (i + 1)
    | some b =>
      cases b with
      | false =>
        simp only [List.cons_append, collectMatches, hcond]
        rw [← hidx]
        exact ih ys inputs (i + 1)
      | true =>
        simp only [List.cons_append, collectMatches, hcond]
        rw [← hidx]
        exact congrArg (List.cons _) (ih ys inputs (i + 1))

/-- Claim C6: if one rule's predicate throws while `evaluateAllRules` runs,
that rule contributes no match, the exception is not propagated (the function
still returns), and every other rule is evaluated exactly as before, its
matches unaffected (they keep their original positions and scores). -/
theorem predicate_error_skipped (rs₁ rs₂ : List Rule) (bad : Rule) (o : Observation)
    (hthrow : bad.condition o = Option.none) :
    collectMatches (rs₁ ++ bad :: rs₂) o 0 =
      collectMatches rs₁ o 0 ++ collectMatches rs₂ o (rs₁.length + 1) ∧
    evaluateAllRules (rs₁ ++ bad :: rs₂) o =
      sortByScoreDesc (collectMatches rs₁ o 0 ++ collectMatches rs₂ o (rs₁.length + 1)) := by
  have h0 : 0 + rs₁.length = rs₁.length := by omega
  have h1 : collectMatches (rs₁ ++ bad :: rs₂) o 0 =
      collectMatches rs₁ o 0 ++ collectMatches rs₂ o (rs₁.length + 1) := by
    rw [collectMatches_append rs₁ (bad :: rs₂) o 0, h0]
    congr 1
    simp only [collectMatches, hthrow]
  exact ⟨h1, by rw [evaluateAllRules, h1]⟩

/-- Witness for C6: a throwing rule placed between GENERAL_TRAUMA and the
catch-all is skipped and both neighbours are evaluated unaffected. -/
theorem predicate_error_skipped_witness :
    collectMatches ([ruleGeneralTrauma] ++ throwingRule :: [ruleUndetermined]) obsTrauma 0 =
      collectMatches [ruleGeneralTrauma] obsTrauma 0 ++
        collectMatches [ruleUndetermined] obsTrauma ([ruleGeneralTrauma].length + 1) :=
  (predicate_error_skipped [ruleGeneralTrauma] [ruleUndetermined] throwingRule obsTrauma rfl).1

/-! ## Claim C1 -/

/-- Claim C1: for every observation that passes input validation, the waterfall
`runDiagnosis` evaluates the predicate of every one of the 30 rules of the
table (the match count equals the number of true predicates, and every true
predicate yields a match — no stopping at the first match), and it returns the
best match: a match whose total weighted score is maximal among all matches
and, on ties, the one of the rule occurring earliest in the priority-ascending
table. -/
theorem waterfall_best_match_spec
    (raw : RawObs) (o : Observation) (w : Match)
    (hval : (validateCompleteInputs raw).isValid = true)
    (hobs : parseObservation raw = some o)
    (hw : (evaluateAllRules sortedRules o).head? = some w) :
    sortedRules.length = 30 ∧
    (collectMatches sortedRules o 0).length =
      sortedRules.countP (fun r => decide (r.condition o = some true)) ∧
    (∀ j r, sortedRules.get? j = some r → r.condition o = some true →
      ∃ z, z ∈ collectMatches sortedRules o 0 ∧ z.rule = r ∧ z.ruleIndex = j) ∧
    w.rule.condition o = some true ∧
    runDiagnosis o = some (createEnhancedDiagnosisResult w (evaluateAllRules sortedRules o)) ∧
    (∀ z ∈ collectMatches sortedRules o 0, z.score.total ≤ w.score.total) ∧
    (∀ z ∈ collectMatches sortedRules o 0, z.score.total = w.score.total →
      w.ruleIndex ≤ z.ruleIndex) := by
  obtain ⟨hmax, l₁, l₂, hsplit, hstrict⟩ :=
    sorted_head_spec (collectMatches sortedRules o 0) w hw
  have hwmem : w ∈ collectMatches sortedRules o 0 := by
    rw [hsplit]; exact List.mem_append_right _ (List.mem_cons_self _ _)
  obtain ⟨hcondw, hscw, hpw, jw, hjw, hidxw⟩ :=
    collectMatches_mem sortedRules o 0 w hwmem
  refine ⟨rfl, collectMatches_length sortedRules o 0, ?_, hcondw, ?_, hmax, ?_⟩
  · intro j r hj hcond
    obtain ⟨z, hz, hzr, hidx, _⟩ := collectMatches_complete sortedRules o 0 j r hj hcond
    exact ⟨z, hz, hzr, by omega⟩
  · cases hE : evaluateAllRules sortedRules o with
    | nil => rw [hE] at hw; simp at hw
    | cons a t =>
      rw [hE] at hw
      simp only [List.head?_cons, Option.some.injEq] at hw
      subst hw
      simp [runDiagnosis, hE]
  · intro z hz htot
    rw [hsplit] at hz
    rcases List.mem_append.mp hz with hz1 | hz2
    · exact absurd htot (ne_of_lt (hstrict z hz1))
    · rcases List.mem_cons.mp hz2 with hzw | hzl2
      · subst hzw; exact le_refl _
      · have hpair := collectMatches_pairwise sortedRules o 0
        rw [hsplit] at hpair
        have hcross := (List.pairwise_append.mp hpair).2.1
        exact le_of_lt ((List.pairwise_cons.mp hcross).1 z hzl2)

/-- Witness for C1 at the valid quiet observation. -/
theorem waterfall_best_match_spec_witness :
    ∃ w, (evaluateAllRules sortedRules obsQuiet).head? = some w ∧
      w.rule.condition obsQuiet = some true := by
  have h3 : (evaluateAllRules sortedRules obsQuiet).head?.isSome = true := by decide
  obtain ⟨w, hw⟩ := Option.isSome_iff_exists.mp h3
  exact ⟨w, hw,
    (waterfall_best_match_spec rawQuiet obsQuiet w (by decide) (by decide) hw).2.2.2.1⟩

/-! ## Claim C2 -/

/-- Claim C2: for every valid observation, the catch-all rule UNDETERMINED
(the only rule of the table whose predicate is always true) wins if and only
if no other rule's predicate evaluates to `true` on that observation. -/
theorem catchall_wins_iff_no_other_match (o : Observation) (w : Match)
    (hw : (evaluateAllRules sortedRules o).head? = some w) :
    (w.rule.id = "UNDETERMINED" ↔
      ∀ r ∈ sortedRules, r.id ≠ "UNDETERMINED" → r.condition o ≠ some true) ∧
    (∀ r ∈ sortedRules, (∀ o₂, r.condition o₂ = some true) → r.id = "UNDETERMINED") := by
  obtain ⟨hmax, l₁, l₂, hsplit, _⟩ :=
    sorted_head_spec (collectMatches sortedRules o 0) w hw
  have hwmem : w ∈ collectMatches sortedRules o 0 := by
    rw [hsplit]; exact List.mem_append_right _ (List.mem_cons_self _ _)
  obtain ⟨hcondw, hscw, _, jw, hjw, _⟩ :=
    collectMatches_mem sortedRules o 0 w hwmem
  have hwrule : w.rule ∈ diagnosticRules := by
    rw [← sortedRules_eq]; exact List.get?_mem hjw
  constructor
  · constructor
    · intro hu r hr hrid hcond
      obtain ⟨j, hj⟩ := List.mem_iff_get?.mp hr
      obtain ⟨z, hz, hzr, _, hzs⟩ := collectMatches_complete sortedRules o 0 j r hj hcond
      have h170 : 170 ≤ z.score.total := by
        rw [hzs]
        exact other_total_ge r (sortedRules_eq ▸ hr) hrid o
      have h85 : w.score.total = 85 := by
        rw [hscw]
        exact undetermined_total w.rule hwrule hu o
      have hle := hmax z hz
      omega
    · intro hnone
      by_contra hne
      exact hnone w.rule (sortedRules_eq ▸ hwrule) hne hcondw
  · intro r hr hall
    exact only_undetermined_always_true r (sortedRules_eq ▸ hr) hall

/-- Witness for C2 at the quiet observation, where only the catch-all
matches and therefore wins. -/
theorem catchall_wins_iff_no_other_match_witness :
    ∃ w, (evaluateAllRules sortedRules obsQuiet).head? = some w ∧
      w.rule.id = "UNDETERMINED" := by
  have h3 : (evaluateAllRules sortedRules obsQuiet).head?.isSome = true := by decide
  obtain ⟨w, hw⟩ := Option.isSome_iff_exists.mp h3
  refine ⟨w, hw, ?_⟩
  exact (catchall_wins_iff_no_other_match obsQuiet w hw).1.mpr (by decide)

/-! ## Forward-chaining engine (`FelineNeuroForwardChainingEngine`) -/

/-- An inference rule of the forward-chaining engine: an AND-only condition
list of fact names, a conclusion list of fact names, and a confidence scalar.
Compiled diagnostic rules carry the original rule and the flag. -/
structure FCRule where
  id : String
  name : String
  conditions : List String
  conclusions : List String
  confidence : ℚ
  originalRule : Option Rule := Option.none
  isDiagnosticRule : Bool := false

/-- The 13 fixed intermediate inference rules of
`convertToForwardChainingRules`. -/
def intermediateRules : List FCRule :=
  [{ id := "DETECT_TRAUMA_SIGNS", name := "Detect Trauma Signs",
     conditions := ["recent_trauma"], conclusions := ["has_trauma_history"],
     confidence := 0.9 },
   { id := "DETECT_SEVERE_NEURO", name := "Detect Severe Neurological Signs",
     conditions := ["seizures_severe"], conclusions := ["severe_neurological_dysfunction"],
     confidence := 0.95 },
   { id := "DETECT_MILD_NEURO", name := "Detect Mild Neurological Signs",
     conditions := ["seizures_mild"], conclusions := ["mild_neurological_dysfunction"],
     confidence := 0.8 },
   { id := "DETECT_PARALYSIS", name := "Detect Paralysis",
     conditions := ["mobility_paralyzed"],
     conclusions := ["has_paralysis", "motor_dysfunction", "mobility_abnormal"],
     confidence := 0.95 },
   { id := "DETECT_ATAXIA", name := "Detect Ataxia",
     conditions := ["mobility_wobbly"],
     conclusions := ["has_ataxia", "coordination_problems", "mobility_abnormal"],
     confidence := 0.9 },
   { id := "DETECT_PAIN", name := "Detect Pain Signs",
     conditions := ["pain_signs"], conclusions := ["experiencing_pain"],
     confidence := 0.85 },
   { id := "DETECT_VASCULAR_COMPROMISE", name := "Detect Vascular Compromise",
     conditions := ["cold_limbs", "has_paralysis"],
     conclusions := ["vascular_compromise", "circulation_problems"],
     confidence := 0.9 },
   { id := "DETECT_METABOLIC_SIGNS", name := "Detect Metabolic Signs",
     conditions := ["neck_flexion"],
     conclusions := ["metabolic_dysfunction", "thiamine_deficiency_signs"],
     confidence := 0.95 },
   { id := "SENIOR_RISK_FACTORS", name := "Senior Risk Factors",
     conditions := ["age_senior"],
     conclusions := ["increased_tumor_risk", "degenerative_risk"],
     confidence := 0.7 },
   { id := "KITTEN_RISK_FACTORS", name := "Kitten Risk Factors",
     conditions := ["age_kitten"],
     conclusions := ["metabolic_vulnerability", "developmental_risk", "age_young_or_adult"],
     confidence := 0.8 },
   { id := "ADULT_RISK_FACTORS", name := "Adult Risk Factors",
     conditions := ["age_adult"], conclusions := ["age_young_or_adult"],
     confidence := 0.8 },
   { id := "ACUTE_ONSET_PATTERN", name := "Acute Onset Pattern",
     conditions := ["onset_sudden"], conclusions := ["acute_condition"],
     confidence := 0.8 },
   { id := "CHRONIC_ONSET_PATTERN", name := "Chronic Onset Pattern",
     conditions := ["onset_gradual"], conclusions := ["chronic_condition"],
     confidence := 0.8 }]

/-- `extractConditionsFromRule(rule)`: the heuristic static scan of the
predicate's source text for known field-comparison substrings, in source
order. -/
def extractConditionsFromRule (rule : Rule) : List String :=
  let s := rule.conditionSrc
  let c : List String := []
  let c := if jsIncludes s "recent_trauma === true" then c ++ ["recent_trauma"] else c
  let c := if jsIncludes s "seizures === \x27severe\x27" then c ++ ["seizures_severe"] else c
  let c := if jsIncludes s "seizures === \x27mild\x27" then c ++ ["seizures_mild"] else c
  let c := if jsIncludes s "mobility_status === \x27paralyzed\x27" then c ++ ["mobility_paralyzed"] else c
  let c := if jsIncludes s "mobility_status === \x27wobbly\x27" then c ++ ["mobility_wobbly"] else c
  let c := if jsIncludes s "mobility_status !== \x27normal\x27" then c ++ ["mobility_abnormal"] else c
  let c := if jsIncludes s "pain_signs === true" then c ++ ["pain_signs"] else c
  let c := if jsIncludes s "cold_limbs === true" then c ++ ["cold_limbs"] else c
  let c := if jsIncludes s "neck_flexion === true" then c ++ ["neck_flexion"] else c
  let c := if jsIncludes s "eye_signs === true" then c ++ ["eye_signs"] else c
  let c := if jsIncludes s "head_tilt === true" then c ++ ["head_tilt"] else c
  let c := if jsIncludes s "ear_issues === true" then c ++ ["ear_issues"] else c
  let hasKittenOrAdult := jsIncludes s "age_group === \x27kitten\x27" &&
                          jsIncludes s "age_group === \x27adult\x27" &&
                          jsIncludes s "||"
  let c :=
    if hasKittenOrAdult then c ++ ["age_young_or_adult"]
    else
      let c := if jsIncludes s "age_group === \x27senior\x27" then c ++ ["age_senior"] else c
      let c := if jsIncludes s "age_group === \x27kitten\x27" then c ++ ["age_kitten"] else c
      if jsIncludes s "age_group === \x27adult\x27" then c ++ ["age_adult"] else c
  let c := if jsIncludes s "onset_speed === \x27sudden\x27" then c ++ ["onset_sudden"] else c
  if jsIncludes s "onset_speed === \x27gradual\x27" then c ++ ["onset_gradual"] else c

/-- `calculateRuleConfidence(rule)`: piecewise-linear confidence from the
rule's numeric priority. -/
def calculateRuleConfidence (rule : Rule) : ℚ :=
  if rule.priority ≤ 5 then 0.95 - ((rule.priority : ℚ) - 1) * 0.01
  else if rule.priority ≤ 15 then 0.9 - ((rule.priority : ℚ) - 6) * 0.01
  else if rule.priority ≤ 25 then 0.8 - ((rule.priority : ℚ) - 16) * 0.01
  else 0.7 - ((rule.priority : ℚ) - 26) * 0.02

/-- The per-diagnostic-rule compilation step of
`convertToForwardChainingRules`. -/
def compileDiagnosticRule (rule : Rule) : FCRule :=
  { id := rule.id
    name := rule.name
    conditions := extractConditionsFromRule rule
    conclusions := ["diagnosis_" ++ jsToLower rule.id]
    confidence := calculateRuleConfidence rule
    originalRule := some rule
    isDiagnosticRule := true }

/-- `convertToForwardChainingRules(priorityRules)`. -/
def convertToForwardChainingRules (priorityRules : List Rule) : List FCRule :=
  intermediateRules ++ priorityRules.map compileDiagnosticRule

/-- `this.forwardChainingRules`, compiled once at engine construction. -/
def forwardChainingRules : List FCRule :=
  convertToForwardChainingRules diagnosticRules

/-- JavaScript `Set.prototype.add` on an insertion-ordered duplicate-free
list. -/
def addFact (facts : List String) (f : String) : List String :=
  if f ∈ facts then facts else facts ++ [f]

/-- `convertInputsToFacts(inputs)`: the one-to-one mapping from raw inputs to
atomic fact tokens, in source order.  Note that it reads the *raw* inputs
directly (the forward-chaining engine performs no validation). -/
def convertInputsToFacts (inputs : RawObs) : List String :=
  let facts : List String := []
  let facts := if inputs.recent_trauma == some true then addFact facts "recent_trauma" else facts
  let facts := if inputs.pain_signs == some true then addFact facts "pain_signs" else facts
  let facts := if inputs.head_tilt == some true then addFact facts "head_tilt" else facts
  let facts := if inputs.cold_limbs == some true then addFact facts "cold_limbs" else facts
  let facts := if inputs.neck_flexion == some true then addFact facts "neck_flexion" else facts
  let facts := if inputs.ear_issues == some true then addFact facts "ear_issues" else facts
  let facts := if inputs.eye_signs == some true then addFact facts "eye_signs" else facts
  let facts := if inputs.age_group == some "senior" then addFact facts "age_senior" else facts
  let facts := if inputs.age_group == some "kitten" then addFact facts "age_kitten" else facts
  let facts := if inputs.age_group == some "adult" then addFact facts "age_adult" else facts
  let facts := if inputs.onset_speed == some "sudden" then addFact facts "onset_sudden" else facts
  let facts := if inputs.onset_speed == some "gradual" then addFact facts "onset_gradual" else facts
  let facts := if inputs.mobility_status == some "paralyzed" then addFact facts "mobility_paralyzed" else facts
  let facts := if inputs.mobility_status == some "wobbly" then addFact facts "mobility_wobbly" else facts
  let facts := if inputs.mobility_status == some "normal" then addFact facts "mobility_normal" else facts
  let facts := if inputs.seizures == some "severe" then addFact facts "seizures_severe" else facts
  let facts := if inputs.seizures == some "mild" then addFact facts "seizures_mild" else facts
  if inputs.seizures == some "none" then addFact facts "seizures_none" else facts

/-- An applied rule entry (`{...rule, appliedInIteration}`). -/
structure AppliedFCRule where
  rule : FCRule
  appliedInIteration : Nat

/-- Add all conclusions of a fired rule to working memory; the boolean is the
`newFactsAdded` flag. -/
def addConclusions (wm : List String) : List String → List String × Bool
  | [] => (wm, false)
  | c :: cs =>
    if c ∈ wm then addConclusions wm cs
    else ((addConclusions (wm ++ [c]) cs).1, true)

/-- One full scan over the inference rules (the `for` loop inside the `while`):
a rule fires when all its conditions are in working memory and it has not been
applied before; its conclusions are added and the `changed` flag records
whether any scan added a new fact. -/
def scanStep (rules : List FCRule) (wm : List String) (applied : List AppliedFCRule)
    (iter : Nat) : List String × List AppliedFCRule × Bool :=
  match rules with
  | [] => (wm, applied, false)
  | r :: rs =>
    if r.conditions.all (fun c => decide (c ∈ wm)) &&
       (applied.find? (fun a => a.rule.id == r.id)).isNone then
      let res := addConclusions wm r.conclusions
      let rest := scanStep rs res.1 (applied ++ [⟨r, iter⟩]) iter
      (rest.1, rest.2.1, res.2 || rest.2.2)
    else
      scanStep rs wm applied iter

/-- The `while (changed && iteration < 10)` loop of `forwardChaining`;
`iteration` counts the scans already performed and `fuel` is the number of
scans still permitted by the cap (`fuel = 10 - iteration` throughout, so
`fuel = 0` is exactly the guard `iteration < 10` failing).  Structural
recursion on `fuel` keeps the function kernel-reducible. -/
def fcLoop (rules : List FCRule) : Nat → List String → List AppliedFCRule → Nat →
    List String × List AppliedFCRule × Nat
  | 0, wm, applied, iteration => (wm, applied, iteration)
  | fuel + 1, wm, applied, iteration =>
    let scan := scanStep rules wm applied (iteration + 1)
    if scan.2.2 then fcLoop rules fuel scan.1 scan.2.1 (iteration + 1)
    else (scan.1, scan.2.1, iteration + 1)

/-- The inference result of `forwardChaining`. -/
structure FCResult where
  derivedFacts : List String
  appliedRules : List AppliedFCRule
  iterations : Nat

/-- `forwardChaining(initialFacts)`: the loop starts at `iteration = 0` with
the full budget of 10 scans. -/
def forwardChaining (initialFacts : List String) : FCResult :=
  let t := fcLoop forwardChainingRules 10 initialFacts [] 0
  { derivedFacts := t.1, appliedRules := t.2.1, iterations := t.2.2 }

/-- A diagnosis result of the forward-chaining engine (display-only fields
omitted). -/
structure FCDiagnosis where
  diagnosis : String
  priority : Int
  urgency : String
  ruleId : String
  confidence : ℚ
deriving DecidableEq, Repr

/-- `createDiagnosisResult(rule, ...)` of the forward-chaining engine. -/
def createDiagnosisResultFC (rule : Rule) : FCDiagnosis :=
  { diagnosis := rule.name, priority := rule.priority, urgency := rule.urgency,
    ruleId := rule.id, confidence := calculateRuleConfidence rule }

/-- `createUndeterminedDiagnosis(...)`: the fallback result. -/
def createUndeterminedDiagnosis : FCDiagnosis :=
  { diagnosis := "Undetermined Neurological Condition", priority := 29,
    urgency := "MODERATE", ruleId := "UNDETERMINED", confidence := 0.6 }

/-- `diagnosticFact.replace('diagnosis_', '').toUpperCase()`. -/
def recoverRuleId (fact : String) : String :=
  jsToUpper (jsReplaceOnce fact "diagnosis_" "")

/-- The accumulator step of the highest-confidence fold in
`selectBestDiagnosis` (strictly-greater update, starting from
`(null, 0)`). -/
def bestDiagStep (applied : List AppliedFCRule) (acc : Option AppliedFCRule × ℚ)
    (fact : String) : Option AppliedFCRule × ℚ :=
  match applied.find? (fun a => a.rule.id == recoverRuleId fact) with
  | some a => if acc.2 < a.rule.confidence then (some a, a.rule.confidence) else acc
  | Option.none => acc

/-- `selectBestDiagnosis(inferenceResult, ...)`. -/
def selectBestDiagnosis (res : FCResult) : FCDiagnosis :=
  let diagnosticFacts := res.derivedFacts.filter (fun f => jsStartsWith f "diagnosis_")
  if diagnosticFacts.isEmpty then createUndeterminedDiagnosis
  else
    let best := diagnosticFacts.foldl (bestDiagStep res.appliedRules) (Option.none, 0)
    match best.1 with
    | some a =>
      match a.rule.originalRule with
      | some orig => createDiagnosisResultFC orig
      | Option.none => createUndeterminedDiagnosis
    | Option.none => createUndeterminedDiagnosis

/-- The forward-chaining engine's `runDiagnosis(inputs)`: fact extraction,
fixed-point inference, then highest-confidence selection.  It performs no
input validation and contains no failure path. -/
def fcRunDiagnosis (inputs : RawObs) : FCDiagnosis :=
  selectBestDiagnosis (forwardChaining (convertInputsToFacts inputs))

/-! ## Lemmas on `addConclusions` -/

theorem addConclusions_mono :
    ∀ (cs wm : List String) (f : String), f ∈ wm → f ∈ (addConclusions wm cs).1 := by
  intro cs
  induction cs with
  | nil => intro wm f hf; simpa [addConclusions] using hf
  | cons c cs ih =>
    intro wm f hf
    rw [addConclusions]
    by_cases hc : c ∈ wm
    · rw [if_pos hc]; exact ih wm f hf
    · rw [if_neg hc]; exact ih (wm ++ [c]) f (List.mem_append_left _ hf)

theorem addConclusions_all :
    ∀ (cs wm : List String) (c : String), c ∈ cs → c ∈ (addConclusions wm cs).1 := by
  intro cs
  induction cs with
  | nil => intro wm c hc; simp at hc
  | cons c' cs ih =>
    intro wm c hc
    rw [addConclusions]
    rcases List.mem_cons.mp hc with hh | ht
    · subst hh
      by_cases hc' : c ∈ wm
      · rw [if_pos hc']; exact addConclusions_mono cs wm c hc'
      · rw [if_neg hc']
        exact addConclusions_mono cs (wm ++ [c]) c
          (List.mem_append_right _ (List.mem_singleton.mpr rfl))
    · by_cases hc' : c' ∈ wm
      · rw [if_pos hc']; exact ih wm c ht
      · rw [if_neg hc']; exact ih (wm ++ [c']) c ht

theorem addConclusions_src :
    ∀ (cs wm : List String) (f : String),
      f ∈ (addConclusions wm cs).1 → f ∈ wm ∨ f ∈ cs := by
  intro cs
  induction cs with
  | nil => intro wm f hf; exact Or.inl (by simpa [addConclusions] using hf)
  | cons c cs ih =>
    intro wm f hf
    rw [addConclusions] at hf
    by_cases hc : c ∈ wm
    · rw [if_pos hc] at hf
      rcases ih wm f hf with h | h
      · exact Or.inl h
      · exact Or.inr (List.mem_cons_of_mem _ h)
    · rw [if_neg hc] at hf
      rcases ih (wm ++ [c]) f hf with h | h
      · rcases List.mem_append.mp h with h1 | h1
        · exact Or.inl h1
        · exact Or.inr (List.mem_cons.mpr (Or.inl (List.mem_singleton.mp h1)))
      · exact Or.inr (List.mem_cons_of_mem _ h)

theorem addConclusions_nochange :
    ∀ (cs wm : List String), (addConclusions wm cs).2 = false →
      (addConclusions wm cs).1 = wm := by
  intro cs
  induction cs with
  | nil => intro wm _; rfl
  | cons c cs ih =>
    intro wm h
    rw [addConclusions] at h ⊢
    by_cases hc : c ∈ wm
    · rw [if_pos hc] at h ⊢; exact ih wm h
    · rw [if_neg hc] at h; simp at h

/-! ## Lemmas on `scanStep` -/

theorem scanStep_wm_mono :
    ∀ (rules : List FCRule) (wm : List String) (ap : List AppliedFCRule) (it : Nat)
      (f : String), f ∈ wm → f ∈ (scanStep rules wm ap it).1 := by
  intro rules
  induction rules with
  | nil => intro wm ap it f hf; simpa [scanStep] using hf
  | cons r rs ih =>
    intro wm ap it f hf
    rw [scanStep]
    by_cases hfire : (r.conditions.all (fun c => decide (c ∈ wm)) &&
        (ap.find? (fun a => a.rule.id == r.id)).isNone) = true
    · rw [if_pos hfire]
      exact ih _ _ it f (addConclusions_mono r.conclusions wm f hf)
    · rw [if_neg hfire]
      exact ih wm ap it f hf

theorem scanStep_applied_mono :
    ∀ (rules : List FCRule) (wm : List String) (ap : List AppliedFCRule) (it : Nat)
      (a : AppliedFCRule), a ∈ ap → a ∈ (scanStep rules wm ap it).2.1 := by
  intro rules
  induction rules with
  | nil => intro wm ap it a ha; simpa [scanStep] using ha
  | cons r rs ih =>
    intro wm ap it a ha
    rw [scanStep]
    by_cases hfire : (r.conditions.all (fun c => decide (c ∈ wm)) &&
        (ap.find? (fun a => a.rule.id == r.id)).isNone) = true
    · rw [if_pos hfire]
      exact ih _ _ it a (List.mem_append_left _ ha)
    · rw [if_neg hfire]
      exact ih wm ap it a ha

theorem scanStep_applied_src :
    ∀ (rules : List FCRule) (wm : List String) (ap : List AppliedFCRule) (it : Nat)
      (a : AppliedFCRule), a ∈ (scanStep rules wm ap it).2.1 → a ∈ ap ∨ a.rule ∈ rules := by
  intro rules
  induction rules with
  | nil => intro wm ap it a ha; exact Or.inl (by simpa [scanStep] using ha)
  | cons r rs ih =>
    intro wm ap it a ha
    rw [scanStep] at ha
    by_cases hfire : (r.conditions.all (fun c => decide (c ∈ wm)) &&
        (ap.find? (fun a => a.rule.id == r.id)).isNone) = true
    · rw [if_pos hfire] at ha
      rcases ih _ _ it a ha with h | h
      · rcases List.mem_append.mp h with h1 | h1
        · exact Or.inl h1
        · rcases List.mem_singleton.mp h1 with rfl
          exact Or.inr (List.mem_cons_self _ _)
      · exact Or.inr (List.mem_cons_of_mem _ h)
    · rw [if_neg hfire] at ha
      rcases ih wm ap it a ha with h | h
      · exact Or.inl h
      · exact Or.inr (List.mem_cons_of_mem _ h)

theorem scanStep_wm_src :
    ∀ (rules : List FCRule) (wm : List String) (ap : List AppliedFCRule) (it : Nat)
      (f : String), f ∈ (scanStep rules wm ap it).1 →
      f ∈ wm ∨ ∃ a ∈ (scanStep rules wm ap it).2.1, f ∈ a.rule.conclusions := by
  intro rules
  induction rules with
  | nil => intro wm ap it f hf; exact Or.inl (by simpa [scanStep] using hf)
  | cons r rs ih =>
    intro wm ap it f hf
    rw [scanStep] at hf ⊢
    by_cases hfire : (r.conditions.all (fun c => decide (c ∈ wm)) &&
        (ap.find? (fun a => a.rule.id == r.id)).isNone) = true
    · rw [if_pos hfire] at hf ⊢
      rcases ih _ _ it f hf with h | ⟨a, ha, hfa⟩
      · rcases addConclusions_src r.conclusions wm f h with h1 | h1
        · exact Or.inl h1
        · refine Or.inr ⟨⟨r, it⟩, ?_, h1⟩
          exact scanStep_applied_mono rs _ _ it _
            (List.mem_append_right _ (List.mem_singleton.mpr rfl))
      · exact Or.inr ⟨a, ha, hfa⟩
    · rw [if_neg hfire] at hf ⊢
      rcases ih wm ap it f hf with h | ⟨a, ha, hfa⟩
      · exact Or.inl h
      · exact Or.inr ⟨a, ha, hfa⟩

/-- If a scan reports no change, working memory is unchanged. -/
theorem scanStep_nochange_wm :
    ∀ (rules : List FCRule) (wm : List String) (ap : List AppliedFCRule) (it : Nat),
      (scanStep rules wm ap it).2.2 = false → (scanStep rules wm ap it).1 = wm := by
  intro rules
  induction rules with
  | nil => intro wm ap it _; rfl
  | cons r rs ih =>
    intro wm ap it h
    rw [scanStep] at h ⊢
    by_cases hfire : (r.conditions.all (fun c => decide (c ∈ wm)) &&
        (ap.find? (fun a => a.rule.id == r.id)).isNone) = true
    · rw [if_pos hfire] at h ⊢
      rcases Bool.or_eq_false_iff.mp h with ⟨hres, hrest⟩
      have hwm : (addConclusions wm r.conclusions).1 = wm :=
        addConclusions_nochange r.conclusions wm hres
      show (scanStep rs (addConclusions wm r.conclusions).1
        (ap ++ [⟨r, it⟩]) it).1 = wm
      rw [hwm]
      rw [hwm] at hrest
      exact ih wm _ it hrest
    · rw [if_neg hfire] at h ⊢
      exact ih wm ap it h

/-- If a scan reports no change, then every rule whose conditions were already
satisfied at the start of the scan has an entry (by id) in the output applied
list. -/
theorem scanStep_nochange_applies :
    ∀ (rules : List FCRule) (wm : List String) (ap : List AppliedFCRule) (it : Nat),
      (scanStep rules wm ap it).2.2 = false →
      ∀ r ∈ rules, (∀ c ∈ r.conditions, c ∈ wm) →
        ∃ a ∈ (scanStep rules wm ap it).2.1, a.rule.id = r.id := by
  intro rules
  induction rules with
  | nil => intro wm ap it _ r hr; simp at hr
  | cons r' rs ih =>
    intro wm ap it h r hr hconds
    rw [scanStep] at h ⊢
    by_cases hfire : (r'.conditions.all (fun c => decide (c ∈ wm)) &&
        (ap.find? (fun a => a.rule.id == r'.id)).isNone) = true
    · rw [if_pos hfire] at h ⊢
      rcases Bool.or_eq_false_iff.mp h with ⟨hres, hrest⟩
      have hwm : (addConclusions wm r'.conclusions).1 = wm :=
        addConclusions_nochange r'.conclusions wm hres
      show ∃ a ∈ (scanStep rs (addConclusions wm r'.conclusions).1
        (ap ++ [⟨r', it⟩]) it).2.1, a.rule.id = r.id
      rcases List.mem_cons.mp hr with hh | ht
      · subst hh
        refine ⟨⟨r, it⟩, ?_, rfl⟩
        exact scanStep_applied_mono rs _ _ it _
          (List.mem_append_right _ (List.mem_singleton.mpr rfl))
      · rw [hwm]
        rw [hwm] at hrest
        exact ih wm _ it hrest r ht hconds
    · rw [if_neg hfire] at h ⊢
      rcases List.mem_cons.mp hr with hh | ht
      · subst hh
        have hall : r.conditions.all (fun c => decide (c ∈ wm)) = true :=
          List.all_eq_true.mpr (fun c hc => decide_eq_true (hconds c hc))
        have hsome : (ap.find? (fun a => a.rule.id == r.id)).isSome = true := by
          cases hval : ap.find? (fun a => a.rule.id == r.id) with
          | none =>
            exfalso
            apply hfire
            rw [hall, hval]
            rfl
          | some a => rfl
        obtain ⟨a, hfind⟩ := Option.isSome_iff_exists.mp hsome
        refine ⟨a, scanStep_applied_mono rs wm ap it a (List.mem_of_find?_eq_some hfind), ?_⟩
        have hp := List.find?_some hfind
        exact beq_iff_eq.mp hp
      · exact ih wm ap it h r ht hconds

/-- If every rule with satisfied conditions is already applied, a scan changes
nothing at all. -/
theorem scanStep_noapply_eq :
    ∀ (rules : List FCRule) (wm : List String) (ap : List AppliedFCRule) (it : Nat),
      (∀ r ∈ rules, (∀ c ∈ r.conditions, c ∈ wm) → ∃ a ∈ ap, a.rule.id = r.id) →
      scanStep rules wm ap it = (wm, ap, false) := by
  intro rules
  induction rules with
  | nil => intro wm ap it _; rfl
  | cons r rs ih =>
    intro wm ap it hyp
    rw [scanStep]
    have hfire : (r.conditions.all (fun c => decide (c ∈ wm)) &&
        (ap.find? (fun a => a.rule.id == r.id)).isNone) = false := by
      by_cases hall : r.conditions.all (fun c => decide (c ∈ wm)) = true
      · have hconds : ∀ c ∈ r.conditions, c ∈ wm := by
          intro c hc
          exact of_decide_eq_true (List.all_eq_true.mp hall c hc)
        obtain ⟨a, ha, hid⟩ := hyp r (List.mem_cons_self _ _) hconds
        have hsome : (ap.find? (fun x => x.rule.id == r.id)).isSome = true :=
          List.find?_isSome.mpr ⟨a, ha, beq_iff_eq.mpr hid⟩
        rw [hall]
        simp only [Bool.true_and]
        rcases Option.isSome_iff_exists.mp hsome with ⟨b, hb⟩
        rw [hb]
        rfl
      · rw [Bool.and_eq_false_iff]
        exact Or.inl (by simpa using hall)
    rw [if_neg (by rw [hfire]; exact Bool.false_ne_true)]
    exact ih wm ap it (fun r' hr' => hyp r' (List.mem_cons_of_mem _ hr'))

/-! ## Lemmas on `fcLoop` -/

theorem fcLoop_wm_mono :
    ∀ (rules : List FCRule) (fuel : Nat) (wm : List String) (ap : List AppliedFCRule)
      (it : Nat) (f : String), f ∈ wm → f ∈ (fcLoop rules fuel wm ap it).1 := by
  intro rules fuel
  induction fuel with
  | zero => intro wm ap it f hf; exact hf
  | succ fuel ih =>
    intro wm ap it f hf
    rw [fcLoop]
    by_cases hch : (scanStep rules wm ap (it + 1)).2.2 = true
    · rw [if_pos hch]
      exact ih _ _ (it + 1) f (scanStep_wm_mono rules wm ap (it + 1) f hf)
    · rw [if_neg hch]
      exact scanStep_wm_mono rules wm ap (it + 1) f hf

theorem fcLoop_applied_mono :
    ∀ (rules : List FCRule) (fuel : Nat) (wm : List String) (ap : List AppliedFCRule)
      (it : Nat) (a : AppliedFCRule), a ∈ ap → a ∈ (fcLoop rules fuel wm ap it).2.1 := by
  intro rules fuel
  induction fuel with
  | zero => intro wm ap it a ha; exact ha
  | succ fuel ih =>
    intro wm ap it a ha
    rw [fcLoop]
    by_cases hch : (scanStep rules wm ap (it + 1)).2.2 = true
    · rw [if_pos hch]
      exact ih _ _ (it + 1) a (scanStep_applied_mono rules wm ap (it + 1) a ha)
    · rw [if_neg hch]
      exact scanStep_applied_mono rules wm ap (it + 1) a ha

theorem fcLoop_applied_src :
    ∀ (rules : List FCRule) (fuel : Nat) (wm : List String) (ap : List AppliedFCRule)
      (it : Nat) (a : AppliedFCRule),
      a ∈ (fcLoop rules fuel wm ap it).2.1 → a ∈ ap ∨ a.rule ∈ rules := by
  intro rules fuel
  induction fuel with
  | zero => intro wm ap it a ha; exact Or.inl ha
  | succ fuel ih =>
    intro wm ap it a ha
    rw [fcLoop] at ha
    by_cases hch : (scanStep rules wm ap (it + 1)).2.2 = true
    · rw [if_pos hch] at ha
      rcases ih _ _ (it + 1) a ha with h | h
      · exact scanStep_applied_src rules wm ap (it + 1) a h
      · exact Or.inr h
    · rw [if_neg hch] at ha
      exact scanStep_applied_src rules wm ap (it + 1) a ha

theorem fcLoop_wm_src :
    ∀ (rules : List FCRule) (fuel : Nat) (wm : List String) (ap : List AppliedFCRule)
      (it : Nat) (f : String), f ∈ (fcLoop rules fuel wm ap it).1 →
      f ∈ wm ∨ ∃ a ∈ (fcLoop rules fuel wm ap it).2.1, f ∈ a.rule.conclusions := by
  intro rules fuel
  induction fuel with
  | zero => intro wm ap it f hf; exact Or.inl hf
  | succ fuel ih =>
    intro wm ap it f hf
    rw [fcLoop] at hf ⊢
    by_cases hch : (scanStep rules wm ap (it + 1)).2.2 = true
    · rw [if_pos hch] at hf ⊢
      rcases ih _ _ (it + 1) f hf with h | ⟨a, ha, hfa⟩
      · rcases scanStep_wm_src rules wm ap (it + 1) f h with h1 | ⟨a, ha, hfa⟩
        · exact Or.inl h1
        · exact Or.inr ⟨a, fcLoop_applied_mono rules fuel _ _ (it + 1) a ha, hfa⟩
      · exact Or.inr ⟨a, ha, hfa⟩
    · rw [if_neg hch] at hf ⊢
      rcases scanStep_wm_src rules wm ap (it + 1) f hf with h1 | ⟨a, ha, hfa⟩
      · exact Or.inl h1
      · exact Or.inr ⟨a, ha, hfa⟩

theorem fcLoop_iterations_le :
    ∀ (rules : List FCRule) (fuel : Nat) (wm : List String) (ap : List AppliedFCRule)
      (it : Nat), (fcLoop rules fuel wm ap it).2.2 ≤ it + fuel := by
  intro rules fuel
  induction fuel with
  | zero => intro wm ap it; exact Nat.le_refl _
  | succ fuel ih =>
    intro wm ap it
    rw [fcLoop]
    by_cases hch : (scanStep rules wm ap (it + 1)).2.2 = true
    · rw [if_pos hch]
      calc (fcLoop rules fuel _ _ (it + 1)).2.2 ≤ (it + 1) + fuel := ih _ _ (it + 1)
        _ = it + (fuel + 1) := by omega
    · rw [if_neg hch]
      show it + 1 ≤ it + (fuel + 1)
      omega

/-- If the loop stops below the cap, its final state is a fixed point: one more
full scan (at any iteration tag) changes nothing. -/
theorem fcLoop_converged :
    ∀ (rules : List FCRule) (fuel : Nat) (wm : List String) (ap : List AppliedFCRule)
      (it : Nat), (fcLoop rules fuel wm ap it).2.2 < it + fuel →
      ∀ j, scanStep rules (fcLoop rules fuel wm ap it).1 (fcLoop rules fuel wm ap it).2.1 j =
        ((fcLoop rules fuel wm ap it).1, (fcLoop rules fuel wm ap it).2.1, false) := by
  intro rules fuel
  induction fuel with
  | zero =>
    intro wm ap it hlt
    simp only [fcLoop] at hlt
    omega
  | succ fuel ih =>
    intro wm ap it hlt j
    rw [fcLoop] at hlt ⊢
    by_cases hch : (scanStep rules wm ap (it + 1)).2.2 = true
    · rw [if_pos hch] at hlt ⊢
      exact ih _ _ (it + 1) (by omega) j
    · rw [if_neg hch] at hlt ⊢
      have hfalse : (scanStep rules wm ap (it + 1)).2.2 = false :=
        Bool.not_eq_true _ ▸ Bool.of_not_eq_true hch
      have hwm : (scanStep rules wm ap (it + 1)).1 = wm :=
        scanStep_nochange_wm rules wm ap (it + 1) hfalse
      apply scanStep_noapply_eq
      intro r hr hconds
      rw [hwm] at hconds
      exact scanStep_nochange_applies rules wm ap (it + 1) hfalse r hr hconds

/-! ## Claim C7 -/

/-- Claim C7: the fixed-point iteration always terminates: starting from any
initial fact set it performs at most 10 scans; and whenever it stops below the
cap, it stopped because a full scan added no new fact — the final state is a
fixed point: one more full scan (at any iteration tag) changes neither working
memory nor the applied list and reports no change.  Reaching the cap simply
returns the current state (the embedding is a total function with no error
path). -/
theorem forward_chaining_terminates (init : List String) :
    (forwardChaining init).iterations ≤ 10 ∧
    ((forwardChaining init).iterations < 10 →
      ∀ j, scanStep forwardChainingRules (forwardChaining init).derivedFacts
        (forwardChaining init).appliedRules j =
        ((forwardChaining init).derivedFacts,
         (forwardChaining init).appliedRules, false)) := by
  constructor
  · have h := fcLoop_iterations_le forwardChainingRules 10 init [] 0
    have h2 : (forwardChaining init).iterations =
        (fcLoop forwardChainingRules 10 init [] 0).2.2 := rfl
    omega
  · intro hlt j
    have hlt2 : (fcLoop forwardChainingRules 10 init [] 0).2.2 < 0 + 10 := by
      have h2 : (forwardChaining init).iterations =
          (fcLoop forwardChainingRules 10 init [] 0).2.2 := rfl
      omega
    exact fcLoop_converged forwardChainingRules 10 init [] 0 hlt2 j

/-- Witness for C7: a concrete run that converges below the cap, whose final
state is therefore a fixed point. -/
theorem forward_chaining_terminates_witness :
    (forwardChaining (convertInputsToFacts rawQuiet)).iterations ≤ 10 ∧
    scanStep forwardChainingRules
      (forwardChaining (convertInputsToFacts rawQuiet)).derivedFacts
      (forwardChaining (convertInputsToFacts rawQuiet)).appliedRules
      ((forwardChaining (convertInputsToFacts rawQuiet)).iterations + 1) =
      ((forwardChaining (convertInputsToFacts rawQuiet)).derivedFacts,
       (forwardChaining (convertInputsToFacts rawQuiet)).appliedRules, false) :=
  ⟨(forward_chaining_terminates (convertInputsToFacts rawQuiet)).1,
   (forward_chaining_terminates (convertInputsToFacts rawQuiet)).2 (by decide) _⟩

/-! ## Claim C8 -/

/-- Claim C8: during one forward-chaining evaluation the working memory only
grows: every fact present before a scan is present after it, every fact
present when the loop takes over is in its final state, and in particular the
initial facts extracted from the observation are contained in the final
derived fact set. -/
theorem working_memory_monotone :
    (∀ (wm : List String) (ap : List AppliedFCRule) (it : Nat) (f : String),
        f ∈ wm → f ∈ (scanStep forwardChainingRules wm ap it).1) ∧
    (∀ (fuel : Nat) (wm : List String) (ap : List AppliedFCRule) (it : Nat) (f : String),
        f ∈ wm → f ∈ (fcLoop forwardChainingRules fuel wm ap it).1) ∧
    (∀ (init : List String) (f : String), f ∈ init → f ∈ (forwardChaining init).derivedFacts) :=
  ⟨scanStep_wm_mono forwardChainingRules, fcLoop_wm_mono forwardChainingRules,
   fun init f hf => fcLoop_wm_mono forwardChainingRules 10 init [] 0 f hf⟩

/-- Witness for C8: a concrete initial fact survives into the final derived
set. -/
theorem working_memory_monotone_witness :
    "recent_trauma" ∈ (forwardChaining ["recent_trauma"]).derivedFacts :=
  working_memory_monotone.2.2 ["recent_trauma"] "recent_trauma" (by decide)

/-! ## Claim C10 -/

/-- A rule with an empty condition list is applied by any scan (unless a rule
with its id was already applied, in which case its conclusions were already
added): its conclusions are in the scanned working memory.  The third
hypothesis handles rules sharing the id inside one scan. -/
theorem scanStep_empty_cond :
    ∀ (rules : List FCRule) (wm : List String) (ap : List AppliedFCRule) (it : Nat)
      (u : FCRule), u ∈ rules → u.conditions = [] →
      (∀ r ∈ rules, r.id = u.id → ∀ c ∈ u.conclusions, c ∈ r.conclusions) →
      (∀ c ∈ u.conclusions, c ∈ (scanStep rules wm ap it).1) ∨
        (∃ a ∈ ap, a.rule.id = u.id) := by
  intro rules
  induction rules with
  | nil => intro wm ap it u hu; simp at hu
  | cons r rs ih =>
    intro wm ap it u hu hconds hU
    rw [scanStep]
    by_cases hfire : (r.conditions.all (fun c => decide (c ∈ wm)) &&
        (ap.find? (fun a => a.rule.id == r.id)).isNone) = true
    · rw [if_pos hfire]
      rcases List.mem_cons.mp hu with hh | ht
      · subst hh
        refine Or.inl (fun c hc => ?_)
        exact scanStep_wm_mono rs _ _ it c (addConclusions_all u.conclusions wm c hc)
      · rcases ih _ _ it u ht hconds
            (fun r' hr' => hU r' (List.mem_cons_of_mem _ hr')) with h | ⟨a, ha, hid⟩
        · exact Or.inl h
        · rcases List.mem_append.mp ha with h1 | h1
          · exact Or.inr ⟨a, h1, hid⟩
          · rcases List.mem_singleton.mp h1 with rfl
            have hsub : ∀ c ∈ u.conclusions, c ∈ r.conclusions :=
              hU r (List.mem_cons_self _ _) hid
            refine Or.inl (fun c hc => ?_)
            exact scanStep_wm_mono rs _ _ it c
              (addConclusions_all r.conclusions wm c (hsub c hc))
    · rw [if_neg hfire]
      rcases List.mem_cons.mp hu with hh | ht
      · subst hh
        have hall : u.conditions.all (fun c => decide (c ∈ wm)) = true := by
          rw [hconds]; rfl
        have hsome : (ap.find? (fun a => a.rule.id == u.id)).isSome = true := by
          cases hval : ap.find? (fun a => a.rule.id == u.id) with
          | none =>
            exfalso
            apply hfire
            rw [hall, hval]
            rfl
          | some a => rfl
        obtain ⟨a, hfind⟩ := Option.isSome_iff_exists.mp hsome
        refine Or.inr ⟨a, List.mem_of_find?_eq_some hfind, ?_⟩
        have hp := List.find?_some hfind
        exact beq_iff_eq.mp hp
      · exact ih wm ap it u ht hconds (fun r' hr' => hU r' (List.mem_cons_of_mem _ hr'))

/-- The catch-all rule compiled for the forward-chaining engine. -/
def fcUndetermined : FCRule := compileDiagnosticRule ruleUndetermined

theorem fcUndetermined_mem : fcUndetermined ∈ forwardChainingRules := by
  refine List.mem_append_right _ ?_
  exact List.mem_map.mpr ⟨ruleUndetermined, by simp [diagnosticRules], rfl⟩

/-- Claim C10: the compiled catch-all rule has an empty condition list (its
predicate source `return true` contains none of the scanned patterns), so for
every initial fact set the fact `diagnosis_undetermined` is in working memory
after the first scan and in the final derived fact set; consequently the
diagnostic-fact filter of `selectBestDiagnosis` is never empty, so the
`createUndeterminedDiagnosis` fallback behind the empty-diagnostic-facts
branch is unreachable. -/
theorem undetermined_fact_always_derived :
    extractConditionsFromRule ruleUndetermined = [] ∧
    ∀ init : List String,
      "diagnosis_undetermined" ∈ (scanStep forwardChainingRules init [] 1).1 ∧
      "diagnosis_undetermined" ∈ (forwardChaining init).derivedFacts ∧
      (forwardChaining init).derivedFacts.filter
        (fun f => jsStartsWith f "diagnosis_") ≠ [] := by
  have hconds : fcUndetermined.conditions = [] := by decide
  have hconcl : "diagnosis_undetermined" ∈ fcUndetermined.conclusions := by decide
  have hU : ∀ r ∈ forwardChainingRules, r.id = fcUndetermined.id →
      ∀ c ∈ fcUndetermined.conclusions, c ∈ r.conclusions := by decide
  refine ⟨by decide, fun init => ?_⟩
  have hscan : "diagnosis_undetermined" ∈ (scanStep forwardChainingRules init [] 1).1 := by
    rcases scanStep_empty_cond forwardChainingRules init [] 1 fcUndetermined
        fcUndetermined_mem hconds hU with h | ⟨a, ha, _⟩
    · exact h _ hconcl
    · simp at ha
  have hfin : "diagnosis_undetermined" ∈ (forwardChaining init).derivedFacts := by
    show "diagnosis_undetermined" ∈ (fcLoop forwardChainingRules 10 init [] 0).1
    rw [show (10 : Nat) = 9 + 1 from rfl, fcLoop]
    by_cases hch : (scanStep forwardChainingRules init [] (0 + 1)).2.2 = true
    · rw [if_pos hch]
      exact fcLoop_wm_mono forwardChainingRules 9 _ _ (0 + 1) _ hscan
    · rw [if_neg hch]
      exact hscan
  refine ⟨hscan, hfin, ?_⟩
  intro hempty
  have hm : "diagnosis_undetermined" ∈ (forwardChaining init).derivedFacts.filter
      (fun f => jsStartsWith f "diagnosis_") :=
    List.mem_filter.mpr ⟨hfin, by decide⟩
  rw [hempty] at hm
  simp at hm

/-! ## Analysis of `selectBestDiagnosis` -/

/-- Specification of the strictly-greater maximising fold of
`selectBestDiagnosis`: the result is either the initial accumulator or carries
an applied rule found from one of the processed facts together with its
confidence; the accumulator confidence never decreases; and every rule found
from a processed fact has confidence bounded by the result. -/
theorem fold_best_spec (applied : List AppliedFCRule) :
    ∀ (facts : List String) (acc : Option AppliedFCRule × ℚ),
      (List.foldl (bestDiagStep applied) acc facts = acc ∨
        ∃ a, (List.foldl (bestDiagStep applied) acc facts).1 = some a ∧
          (List.foldl (bestDiagStep applied) acc facts).2 = a.rule.confidence ∧
          ∃ f ∈ facts, applied.find? (fun x => x.rule.id == recoverRuleId f) = some a) ∧
      acc.2 ≤ (List.foldl (bestDiagStep applied) acc facts).2 ∧
      (∀ f ∈ facts, ∀ b, applied.find? (fun x => x.rule.id == recoverRuleId f) = some b →
        b.rule.confidence ≤ (List.foldl (bestDiagStep applied) acc facts).2) := by
  intro facts
  induction facts with
  | nil =>
    intro acc
    refine ⟨Or.inl rfl, le_refl _, ?_⟩
    intro f hf
    simp at hf
  | cons f fs ih =>
    intro acc
    rw [List.foldl_cons]
    cases hfind : applied.find? (fun x => x.rule.id == recoverRuleId f) with
    | none =>
      have hacc : bestDiagStep applied acc f = acc := by
        simp only [bestDiagStep, hfind]
      rw [hacc]
      obtain ⟨hd, hm, hb⟩ := ih acc
      refine ⟨?_, hm, ?_⟩
      · rcases hd with hl | ⟨a, h1, h2, f', hf', h3⟩
        · exact Or.inl hl
        · exact Or.inr ⟨a, h1, h2, f', List.mem_cons_of_mem _ hf', h3⟩
      · intro g hg b hgb
        rcases List.mem_cons.mp hg with rfl | hgfs
        · rw [hfind] at hgb; cases hgb
        · exact hb g hgfs b hgb
    | some a0 =>
      by_cases hlt : acc.2 < a0.rule.confidence
      · have hacc : bestDiagStep applied acc f = (some a0, a0.rule.confidence) := by
          simp only [bestDiagStep, hfind, if_pos hlt]
        rw [hacc]
        obtain ⟨hd, hm, hb⟩ := ih (some a0, a0.rule.confidence)
        have hm' : a0.rule.confidence ≤
            (List.foldl (bestDiagStep applied) (some a0, a0.rule.confidence) fs).2 := hm
        refine ⟨?_, le_trans (le_of_lt hlt) hm', ?_⟩
        · rcases hd with hl | ⟨a, h1, h2, f', hf', h3⟩
          · refine Or.inr ⟨a0, by rw [hl], by rw [hl], f, List.mem_cons_self _ _, hfind⟩
          · exact Or.inr ⟨a, h1, h2, f', List.mem_cons_of_mem _ hf', h3⟩
        · intro g hg b hgb
          rcases List.mem_cons.mp hg with rfl | hgfs
          · rw [hfind] at hgb
            injection hgb with hba
            subst hba
            exact hm'
          · exact hb g hgfs b hgb
      · have hacc : bestDiagStep applied acc f = acc := by
          simp only [bestDiagStep, hfind, if_neg hlt]
        rw [hacc]
        obtain ⟨hd, hm, hb⟩ := ih acc
        refine ⟨?_, hm, ?_⟩
        · rcases hd with hl | ⟨a, h1, h2, f', hf', h3⟩
          · exact Or.inl hl
          · exact Or.inr ⟨a, h1, h2, f', List.mem_cons_of_mem _ hf', h3⟩
        · intro g hg b hgb
          rcases List.mem_cons.mp hg with rfl | hgfs
          · rw [hfind] at hgb
            injection hgb with hba
            subst hba
            exact le_trans (not_lt.mp hlt) hm
          · exact hb g hgfs b hgb

/-- Case analysis of `selectBestDiagnosis`: either it returns the fallback, or
it returns through an applied rule found from one of the derived diagnostic
facts (then via that rule's original rule if it has one). -/
theorem selectBest_cases (res : FCResult) :
    selectBestDiagnosis res = createUndeterminedDiagnosis ∨
    ∃ a, a ∈ res.appliedRules ∧
      (∃ f ∈ res.derivedFacts.filter (fun f => jsStartsWith f "diagnosis_"),
        res.appliedRules.find? (fun x => x.rule.id == recoverRuleId f) = some a) ∧
      ((∃ orig, a.rule.originalRule = some orig ∧
          selectBestDiagnosis res = createDiagnosisResultFC orig) ∨
       (a.rule.originalRule = Option.none ∧
          selectBestDiagnosis res = createUndeterminedDiagnosis)) := by
  by_cases hempty : (res.derivedFacts.filter (fun f => jsStartsWith f "diagnosis_")).isEmpty = true
  · refine Or.inl ?_
    simp only [selectBestDiagnosis]
    rw [if_pos hempty]
  · obtain ⟨hd, hm, hb⟩ := fold_best_spec res.appliedRules
      (res.derivedFacts.filter (fun f => jsStartsWith f "diagnosis_")) (Option.none, 0)
    rcases hd with hl | ⟨a, h1, h2, f', hf', h3⟩
    · refine Or.inl ?_
      simp only [selectBestDiagnosis]
      rw [if_neg hempty, hl]
    · have hmem : a ∈ res.appliedRules := List.mem_of_find?_eq_some h3
      cases horig : a.rule.originalRule with
      | some orig =>
        refine Or.inr ⟨a, hmem, ⟨f', hf', h3⟩, Or.inl ⟨orig, horig, ?_⟩⟩
        simp only [selectBestDiagnosis]
        rw [if_neg hempty, h1]
        show (match a.rule.originalRule with
          | some orig => createDiagnosisResultFC orig
          | Option.none => createUndeterminedDiagnosis) = createDiagnosisResultFC orig
        rw [horig]
      | none =>
        refine Or.inr ⟨a, hmem, ⟨f', hf', h3⟩, Or.inr ⟨horig, ?_⟩⟩
        simp only [selectBestDiagnosis]
        rw [if_neg hempty, h1]
        show (match a.rule.originalRule with
          | some orig => createDiagnosisResultFC orig
          | Option.none => createUndeterminedDiagnosis) = createUndeterminedDiagnosis
        rw [horig]

/-- Every compiled inference rule is an intermediate rule or the compilation
of a rule of the knowledge base. -/
theorem fcRules_src :
    ∀ fr ∈ forwardChainingRules,
      fr ∈ intermediateRules ∨ ∃ r ∈ diagnosticRules, fr = compileDiagnosticRule r := by
  intro fr h
  rcases List.mem_append.mp h with h1 | h2
  · exact Or.inl h1
  · obtain ⟨r, hr, heq⟩ := List.mem_map.mp h2
    exact Or.inr ⟨r, hr, heq.symm⟩

/-- The intermediate rules carry no original diagnostic rule. -/
theorem intermediate_orig_none :
    ∀ fr ∈ intermediateRules, fr.originalRule.isNone = true := by decide

/-- The applied-rule list of a forward-chaining run contains only compiled
inference rules. -/
theorem forwardChaining_applied_ok (init : List String) :
    ∀ a ∈ (forwardChaining init).appliedRules, a.rule ∈ forwardChainingRules := by
  intro a ha
  rcases fcLoop_applied_src forwardChainingRules 10 init [] 0 a ha with h | h
  · simp at h
  · exact h

/-- The forward-chaining engine's result always names a rule of the knowledge
base or the undetermined fallback, for any raw input, validated or not. -/
theorem fc_ruleId_mem (raw : RawObs) :
    (fcRunDiagnosis raw).ruleId ∈ "UNDETERMINED" :: diagnosticRules.map Rule.id := by
  have hAp := forwardChaining_applied_ok (convertInputsToFacts raw)
  show (selectBestDiagnosis (forwardChaining (convertInputsToFacts raw))).ruleId ∈ _
  rcases selectBest_cases (forwardChaining (convertInputsToFacts raw)) with h |
    ⟨a, hmem, _, hbr⟩
  · rw [h]; exact List.mem_cons_self _ _
  · rcases hbr with ⟨orig, horig, hsel⟩ | ⟨hnone, hsel⟩
    · rw [hsel]
      rcases fcRules_src a.rule (hAp a hmem) with hint | ⟨r, hr, heq⟩
      · exfalso
        have hn := intermediate_orig_none a.rule hint
        rw [horig] at hn
        simp at hn
      · rw [heq] at horig
        have horig2 : r = orig := by
          simpa [compileDiagnosticRule] using horig
        subst horig2
        exact List.mem_cons_of_mem _ (List.mem_map.mpr ⟨r, hr, rfl⟩)
    · rw [hsel]; exact List.mem_cons_self _ _

/-! ## Claim C3 (corrected) -/

/-- Counterexample to claim C3: the completely absent observation fails
validation, yet the forward-chaining `runDiagnosis` does not fail — it
returns a Diagnosis Result (named after a knowledge-base rule or the
undetermined fallback).  The method performs no validation at all. -/
theorem fc_no_validation_counterexample :
    (validateCompleteInputs rawEmpty).isValid = false ∧
    ∃ d : FCDiagnosis, fcRunDiagnosis rawEmpty = d ∧
      d.ruleId ∈ "UNDETERMINED" :: diagnosticRules.map Rule.id :=
  ⟨by decide, fcRunDiagnosis rawEmpty, rfl, fc_ruleId_mem rawEmpty⟩

/-- Claim C3 as amended: unlike the waterfall engine, the forward-chaining
engine's `runDiagnosis` has no validation precondition: for every observation
that is incomplete or malformed it still returns a Diagnosis Result (never a
validation error), naming a knowledge-base rule or the undetermined
fallback. -/
theorem fc_returns_result_without_validation :
    ∀ raw : RawObs, (validateCompleteInputs raw).isValid = false →
      (fcRunDiagnosis raw).ruleId ∈ "UNDETERMINED" :: diagnosticRules.map Rule.id :=
  fun raw _ => fc_ruleId_mem raw

/-- Witness for the amended C3 at the empty observation. -/
theorem fc_returns_result_without_validation_witness :
    (validateCompleteInputs rawEmpty).isValid = false ∧
    (fcRunDiagnosis rawEmpty).ruleId ∈ "UNDETERMINED" :: diagnosticRules.map Rule.id :=
  ⟨by decide, fc_returns_result_without_validation rawEmpty (by decide)⟩

/-! ## Confidence algebra -/

/-- Closed form of the piecewise confidence formula: the three upper bands
coincide in `(96 - p)/100`, the last band is `(122 - 2p)/100`. -/
theorem calculateRuleConfidence_closed (r : Rule) :
    calculateRuleConfidence r =
      if r.priority ≤ 25 then (96 - (r.priority : ℚ)) / 100
      else (122 - 2 * (r.priority : ℚ)) / 100 := by
  unfold calculateRuleConfidence
  split_ifs <;> first
    | (exfalso; omega)
    | ring

/-- Confidence is strictly antitone in priority on the range 1..30. -/
theorem conf_anti (r₁ r₂ : Rule) (h1 : 1 ≤ r₁.priority) (h12 : r₁.priority < r₂.priority)
    (h2 : r₂.priority ≤ 30) :
    calculateRuleConfidence r₂ < calculateRuleConfidence r₁ := by
  rw [calculateRuleConfidence_closed, calculateRuleConfidence_closed]
  have hc : (r₁.priority : ℚ) < (r₂.priority : ℚ) := by exact_mod_cast h12
  split_ifs with ha hb hb
  · linarith
  · exfalso; omega
  · have hq : (26 : ℚ) ≤ (r₂.priority : ℚ) := by
      exact_mod_cast (by omega : (26 : Int) ≤ r₂.priority)
    have hp : ((r₁.priority : ℚ)) ≤ 25 := by exact_mod_cast hb
    linarith
  · linarith

/-- Confidence lies strictly between 0 and 1 on the priority range 1..30. -/
theorem conf_bounds (r : Rule) (h1 : 1 ≤ r.priority) (h2 : r.priority ≤ 30) :
    0 < calculateRuleConfidence r ∧ calculateRuleConfidence r < 1 := by
  rw [calculateRuleConfidence_closed]
  have hp1 : (1 : ℚ) ≤ (r.priority : ℚ) := by exact_mod_cast h1
  have hp2 : ((r.priority : ℚ)) ≤ 30 := by exact_mod_cast h2
  split_ifs with ha
  · have hp3 : ((r.priority : ℚ)) ≤ 25 := by exact_mod_cast ha
    constructor <;> linarith
  · have hp3 : (26 : ℚ) ≤ (r.priority : ℚ) := by
      exact_mod_cast (by omega : (26 : Int) ≤ r.priority)
    constructor <;> linarith

/-! ## Structural facts about the compiled rule set -/

/-- No intermediate rule concludes a diagnosis fact. -/
theorem inter_concl_no_diag :
    ∀ fr ∈ intermediateRules, ∀ c ∈ fr.conclusions,
      jsStartsWith c "diagnosis_" = false := by decide

/-- Intermediate-rule ids never collide with knowledge-base rule ids. -/
theorem inter_id_ne_table :
    ∀ fr ∈ intermediateRules, ∀ r ∈ diagnosticRules, fr.id ≠ r.id := by decide

/-- The knowledge-base rule ids are pairwise distinct. -/
theorem table_ids_nodup : (diagnosticRules.map Rule.id).Nodup := by decide

/-- `replace`/`toUpperCase` recovers the rule id from its diagnosis fact. -/
theorem table_recover :
    ∀ r ∈ diagnosticRules, recoverRuleId ("diagnosis_" ++ jsToLower r.id) = r.id := by decide

/-- Every diagnosis fact of the table carries the scanned prefix. -/
theorem table_fact_prefix :
    ∀ r ∈ diagnosticRules,
      jsStartsWith ("diagnosis_" ++ jsToLower r.id) "diagnosis_" = true := by decide

/-- The table's priorities all lie in 1..30. -/
theorem table_priorities :
    ∀ r ∈ diagnosticRules, 1 ≤ r.priority ∧ r.priority ≤ 30 := by decide

/-- Table rules are determined by their id. -/
theorem table_id_inj {x y : Rule} (hx : x ∈ diagnosticRules) (hy : y ∈ diagnosticRules)
    (h : x.id = y.id) : x = y :=
  List.inj_on_of_nodup_map table_ids_nodup hx hy h

/-- An applied rule that carries a knowledge-base id is the compilation of
that very knowledge-base rule. -/
theorem applied_rule_by_id {ap : List AppliedFCRule}
    (hA : ∀ a ∈ ap, a.rule ∈ forwardChainingRules)
    {b : AppliedFCRule} {r : Rule} (hb : b ∈ ap) (hid : b.rule.id = r.id)
    (hr : r ∈ diagnosticRules) : b.rule = compileDiagnosticRule r := by
  rcases fcRules_src b.rule (hA b hb) with hint | ⟨r', hr', heq⟩
  · exact absurd hid (inter_id_ne_table b.rule hint r hr)
  · have hid2 : r'.id = r.id := by rw [heq] at hid; exact hid
    rw [heq, table_id_inj hr' hr hid2]

/-- In a run started from facts without the `diagnosis_` prefix, every derived
diagnosis fact was concluded by some applied rule. -/
theorem forwardChaining_facts_src (init : List String)
    (hinit : ∀ f ∈ init, jsStartsWith f "diagnosis_" = false) :
    ∀ f ∈ (forwardChaining init).derivedFacts, jsStartsWith f "diagnosis_" = true →
      ∃ a ∈ (forwardChaining init).appliedRules, f ∈ a.rule.conclusions := by
  intro f hf hpre
  rcases fcLoop_wm_src forwardChainingRules 10 init [] 0 f hf with h | ⟨a, ha, hfa⟩
  · rw [hinit f h] at hpre; cases hpre
  · exact ⟨a, ha, hfa⟩

/-- Every derived diagnosis fact is the fact of a unique knowledge-base rule,
and looking it up by recovered id in the applied list yields exactly that
rule's compilation. -/
theorem diag_fact_rule (init : List String)
    (hinit : ∀ f ∈ init, jsStartsWith f "diagnosis_" = false)
    (f : String) (hf : f ∈ (forwardChaining init).derivedFacts)
    (hpre : jsStartsWith f "diagnosis_" = true) :
    ∃ r' ∈ diagnosticRules, f = "diagnosis_" ++ jsToLower r'.id ∧
      ∃ b, (forwardChaining init).appliedRules.find?
          (fun x => x.rule.id == recoverRuleId f) = some b ∧
        b.rule = compileDiagnosticRule r' := by
  obtain ⟨a, ha, hfa⟩ := forwardChaining_facts_src init hinit f hf hpre
  have hA := forwardChaining_applied_ok init
  rcases fcRules_src a.rule (hA a ha) with hint | ⟨r', hr', heq⟩
  · exfalso
    have hh := inter_concl_no_diag a.rule hint f hfa
    rw [hh] at hpre
    cases hpre
  · rw [heq] at hfa
    have hfeq : f = "diagnosis_" ++ jsToLower r'.id := by
      simpa [compileDiagnosticRule] using hfa
    refine ⟨r', hr', hfeq, ?_⟩
    have hrec : recoverRuleId f = r'.id := by rw [hfeq]; exact table_recover r' hr'
    have hsome : ((forwardChaining init).appliedRules.find?
        (fun x => x.rule.id == recoverRuleId f)).isSome = true := by
      refine List.find?_isSome.mpr ⟨a, ha, ?_⟩
      rw [heq, hrec]
      exact beq_iff_eq.mpr rfl
    obtain ⟨b, hfind⟩ := Option.isSome_iff_exists.mp hsome
    refine ⟨b, hfind, ?_⟩
    have hp := List.find?_some hfind
    have hbid : b.rule.id = r'.id := by rw [← hrec]; exact beq_iff_eq.mp hp
    exact applied_rule_by_id hA (List.mem_of_find?_eq_some hfind) hbid hr'

/-! ## Claim C9 -/

/-- Claim C9: the compiled confidence scalar is strictly decreasing in the
rule priority on 1..30 and always lies strictly between 0 and 1; consequently,
in any forward-chaining run (started, as every run is, from facts without the
`diagnosis_` prefix), whenever diagnosis facts are derived,
`selectBestDiagnosis` returns the diagnosis of the rule with the smallest
priority number among those whose facts were derived. -/
theorem confidence_monotone_min_priority :
    (∀ r₁ r₂ : Rule, 1 ≤ r₁.priority → r₁.priority < r₂.priority → r₂.priority ≤ 30 →
      calculateRuleConfidence r₂ < calculateRuleConfidence r₁ ∧
      0 < calculateRuleConfidence r₁ ∧ calculateRuleConfidence r₁ < 1 ∧
      0 < calculateRuleConfidence r₂ ∧ calculateRuleConfidence r₂ < 1) ∧
    (∀ init : List String, (∀ f ∈ init, jsStartsWith f "diagnosis_" = false) →
      ∀ r' ∈ diagnosticRules,
        ("diagnosis_" ++ jsToLower r'.id) ∈ (forwardChaining init).derivedFacts →
        ∃ r₀ ∈ diagnosticRules,
          selectBestDiagnosis (forwardChaining init) = createDiagnosisResultFC r₀ ∧
          ("diagnosis_" ++ jsToLower r₀.id) ∈ (forwardChaining init).derivedFacts ∧
          ∀ r ∈ diagnosticRules,
            ("diagnosis_" ++ jsToLower r.id) ∈ (forwardChaining init).derivedFacts →
            r₀.priority ≤ r.priority) := by
  constructor
  · intro r₁ r₂ h1 h12 h2
    obtain ⟨hb1, hb2⟩ := conf_bounds r₁ h1 (by omega)
    obtain ⟨hb3, hb4⟩ := conf_bounds r₂ (by omega) h2
    exact ⟨conf_anti r₁ r₂ h1 h12 h2, hb1, hb2, hb3, hb4⟩
  · intro init hinit r' hr' hfr'
    have hpre' := table_fact_prefix r' hr'
    have hmemf : ("diagnosis_" ++ jsToLower r'.id) ∈
        (forwardChaining init).derivedFacts.filter (fun f => jsStartsWith f "diagnosis_") :=
      List.mem_filter.mpr ⟨hfr', hpre'⟩
    have hne : ¬ (((forwardChaining init).derivedFacts.filter
        (fun f => jsStartsWith f "diagnosis_")).isEmpty = true) := by
      intro hE
      rw [List.isEmpty_iff] at hE
      rw [hE] at hmemf
      simp at hmemf
    obtain ⟨hd, hm, hb⟩ := fold_best_spec (forwardChaining init).appliedRules
      ((forwardChaining init).derivedFacts.filter (fun f => jsStartsWith f "diagnosis_"))
      (Option.none, 0)
    obtain ⟨rf, hrf, hfeqf, bf, hfindf, hbfrule⟩ := diag_fact_rule init hinit _ hfr' hpre'
    have hposf : 0 < bf.rule.confidence := by
      rw [hbfrule]
      obtain ⟨hq1, hq2⟩ := table_priorities rf hrf
      exact (conf_bounds rf hq1 hq2).1
    have hboundf := hb _ hmemf bf hfindf
    rcases hd with hl | ⟨a, h1a, h2a, f₀, hf₀, hfind₀⟩
    · exfalso
      rw [hl] at hboundf
      exact absurd hboundf (by simpa using hposf)
    · obtain ⟨hf₀d, hf₀p⟩ := List.mem_filter.mp hf₀
      obtain ⟨r₀, hr₀, hf₀eq, b₀, hfind₀', hb₀rule⟩ := diag_fact_rule init hinit f₀ hf₀d hf₀p
      have hab₀ : a = b₀ := by
        rw [hfind₀] at hfind₀'
        injection hfind₀'
      subst hab₀
      have horig : a.rule.originalRule = some r₀ := by rw [hb₀rule]; rfl
      have hsel : selectBestDiagnosis (forwardChaining init) = createDiagnosisResultFC r₀ := by
        simp only [selectBestDiagnosis]
        rw [if_neg hne, h1a]
        show (match a.rule.originalRule with
          | some orig => createDiagnosisResultFC orig
          | Option.none => createUndeterminedDiagnosis) = createDiagnosisResultFC r₀
        rw [horig]
      refine ⟨r₀, hr₀, hsel, by rw [← hf₀eq]; exact hf₀d, ?_⟩
      intro r hr hfr
      have hprer := table_fact_prefix r hr
      have hmfr : ("diagnosis_" ++ jsToLower r.id) ∈
          (forwardChaining init).derivedFacts.filter (fun f => jsStartsWith f "diagnosis_") :=
        List.mem_filter.mpr ⟨hfr, hprer⟩
      obtain ⟨r₂', hr₂', heq₂, b₂, hfind₂, hb₂rule⟩ := diag_fact_rule init hinit _ hfr hprer
      have hid₂ : r₂'.id = r.id := by
        have e1 := table_recover r hr
        have e2 := table_recover r₂' hr₂'
        rw [← heq₂] at e2
        rw [e1] at e2
        exact e2.symm
      have hr₂eq : r₂' = r := table_id_inj hr₂' hr hid₂
      subst hr₂eq
      have hconf₂ : b₂.rule.confidence ≤ a.rule.confidence := by
        have := hb _ hmfr b₂ hfind₂
        rw [h2a] at this
        exact this
      rw [hb₂rule, hb₀rule] at hconf₂
      by_contra hpc
      push_neg at hpc
      obtain ⟨hq1, hq2⟩ := table_priorities r₂' hr
      obtain ⟨hq3, hq4⟩ := table_priorities r₀ hr₀
      have := conf_anti r₂' r₀ hq1 hpc hq4
      have hc1 : calculateRuleConfidence r₂' =
          (compileDiagnosticRule r₂').confidence := rfl
      have hc2 : calculateRuleConfidence r₀ =
          (compileDiagnosticRule r₀).confidence := rfl
      rw [hc1, hc2] at this
      linarith

/-- Witness for C9: a concrete strict confidence comparison (priorities 1 and
2) and a concrete run with several derived diagnosis facts, for which the
selected diagnosis has the smallest priority among the derived ones. -/
theorem confidence_monotone_min_priority_witness :
    calculateRuleConfidence ruleSpinalFracture <
      calculateRuleConfidence ruleTraumaticBrainInjury ∧
    ∃ r₀ ∈ diagnosticRules,
      selectBestDiagnosis (forwardChaining (convertInputsToFacts rawTrauma)) =
        createDiagnosisResultFC r₀ ∧
      ("diagnosis_" ++ jsToLower r₀.id) ∈
        (forwardChaining (convertInputsToFacts rawTrauma)).derivedFacts ∧
      ∀ r ∈ diagnosticRules,
        ("diagnosis_" ++ jsToLower r.id) ∈
          (forwardChaining (convertInputsToFacts rawTrauma)).derivedFacts →
        r₀.priority ≤ r.priority :=
  ⟨(confidence_monotone_min_priority.1 ruleTraumaticBrainInjury ruleSpinalFracture
      (by decide) (by decide) (by decide)).1,
   confidence_monotone_min_priority.2 (convertInputsToFacts rawTrauma) (by decide)
     ruleTraumaticBrainInjury (by simp [diagnosticRules]) (by decide)⟩

end FelineES
